import Mathlib

/-!
# Grocery Inventory Management System — verification development

A shallow embedding of the stock ledger, alert engine and replenishment
workflow of the repository (`models.py`, `inventory_manager.py`,
`alert_system.py`, `restock_manager.py`), together with proofs of the
behavioural claims about it.

Modelling conventions:
* Machine integers are `Int`/`Nat` (Python integers are unbounded, so no
  wrap-around is modelled).
* Python `float` money fields (`price`, `cost`, `total_value`, …) are
  modelled as `ℚ`; no claim below depends on rounding behaviour.
* `datetime.now()` values are modelled as `Nat` timestamps measured in
  minutes, threaded explicitly through every operation that reads the clock.
* Exceptions are modelled with `Except`; a raised exception leaves the state
  unchanged (in the source every `raise` happens before any mutation).
* The SQLAlchemy session is modelled as an explicit `Sys` record holding
  all persisted rows plus the in-memory cooldown/observer bookkeeping of a
  single `AlertSystem` instance; `query(...).first()` becomes `List.find?`,
  in-place mutation of the first matching row becomes `updateFirst`.
-/

namespace Grocery

/-- `TransactionType` from `models.py` (`Sale`, `Restock`, `Return`,
`Adjustment`, `Expired`, `Damaged`). `Return` is a reserved word-ish name in
some contexts, rendered `ret`. -/
inductive TransactionType where
  | sale
  | restock
  | ret
  | adjustment
  | expired
  | damaged
deriving DecidableEq

/-- `OrderStatus` from `models.py`. -/
inductive OrderStatus where
  | pending
  | confirmed
  | shipped
  | delivered
  | cancelled
deriving DecidableEq

/-- `AlertStatus` from `models.py`. -/
inductive AlertStatus where
  | active
  | acknowledged
  | resolved
deriving DecidableEq

/-- The alert kind constants of `AlertSystem` (`LOW_STOCK`, `OUT_OF_STOCK`,
`CRITICAL_LOW`, `EXPIRING_SOON`). -/
inductive AlertType where
  | lowStock
  | outOfStock
  | criticalLow
  | expiringSoon
deriving DecidableEq

/-- The fields of `Product` (`models.py`) used by the core logic.
Descriptive fields (sku, name, barcode, …) are omitted: no claim reads them. -/
structure Product where
  id : Nat
  current_stock : Int
  min_stock_level : Int
  cost : ℚ
  price : ℚ
  is_active : Bool
  supplier_id : Option Nat
deriving DecidableEq

/-- `StockTransaction` (`models.py`): one immutable ledger row. -/
structure StockTransaction where
  product_id : Nat
  transaction_type : TransactionType
  quantity : Int
  previous_stock : Int
  new_stock : Int
  unit_price : ℚ
  total_value : ℚ
deriving DecidableEq

/-- `StockAlert` (`models.py`). `id` is the autoincrement primary key. -/
structure StockAlert where
  id : Nat
  product_id : Nat
  alert_type : AlertType
  status : AlertStatus
  stock_level_at_alert : Int
  acknowledged_at : Option Nat
  resolved_at : Option Nat
deriving DecidableEq

/-- `RestockOrderItem` (`models.py`). -/
structure RestockOrderItem where
  product_id : Nat
  quantity_ordered : Int
  quantity_received : Int
  unit_cost : ℚ
  total_price : ℚ
deriving DecidableEq

/-- `RestockOrder` (`models.py`) with its owned items. -/
structure RestockOrder where
  id : Nat
  supplier_id : Nat
  status : OrderStatus
  total_amount : ℚ
  items : List RestockOrderItem
  expected_delivery : Option Nat
  actual_delivery : Option Nat
deriving DecidableEq

/-- The fields of `Supplier` (`models.py`) the core reads. -/
structure Supplier where
  id : Nat
  lead_time_days : Nat
deriving DecidableEq

/-- The whole persistent store plus the in-memory state of one
`AlertSystem` instance: its `_alert_cooldown` dictionary (keyed on
`f"{product_id}_{alert_type}"`, modelled as the pair), its
`cooldown_minutes` setting, and the log of observer notifications it has
dispatched (`_notify_observers` calls). The `next_*` counters model the
autoincrement primary keys. -/
structure Sys where
  products : List Product
  transactions : List StockTransaction
  alerts : List StockAlert
  suppliers : List Supplier
  orders : List RestockOrder
  cooldown : List ((Nat × AlertType) × Nat)
  notifications : List (Nat × AlertType × Nat)
  cooldown_minutes : Nat
  next_product_id : Nat
  next_alert_id : Nat
  next_order_id : Nat
deriving DecidableEq

/-- Mutate the first element of a list satisfying `p` (the model of loading
a row with `.first()` and mutating it in place). -/
def updateFirst (p : α → Bool) (f : α → α) : List α → List α
  | [] => []
  | a :: as => if p a then f a :: as else a :: updateFirst p f as

/-- The current stock of the product with id `pid` (0 when absent; in the
source the row always exists when this is read). -/
def stockOfP (ps : List Product) (pid : Nat) : Int :=
  match ps.find? (fun p => p.id == pid) with
  | some p => p.current_stock
  | none => 0

def stockOf (s : Sys) (pid : Nat) : Int :=
  stockOfP s.products pid

/-- Sum of the signed quantity deltas of a transaction list restricted to a
product. -/
def sumQL (l : List StockTransaction) (pid : Nat) : Int :=
  ((l.filter (fun t => t.product_id == pid)).map (fun t => t.quantity)).sum

/-- Sum of the signed quantity deltas of all committed transactions for a
product. -/
def sumQ (s : Sys) (pid : Nat) : Int :=
  sumQL s.transactions pid

/-! ## Alert engine (`alert_system.py`) -/

/-- The stock classification of `AlertSystem.check_product_stock`:
out-of-stock (`current_stock <= 0`), else critical-low
(`current_stock <= min_stock_level * 0.5`, exact over the integers as
`2 * stock ≤ min_stock_level`), else low-stock
(`current_stock <= min_stock_level`), else no condition. -/
def classifyAlert (stock min_level : Int) : Option AlertType :=
  if stock ≤ 0 then some .outOfStock
  else if 2 * stock ≤ min_level then some .criticalLow
  else if stock ≤ min_level then some .lowStock
  else none

/-- The filter of the existing-alert query in `check_product_stock`
and of the alert-uniqueness invariant: an Active alert for the given
(product, kind) pair. -/
def activeAlertP (pid : Nat) (ty : AlertType) (a : StockAlert) : Bool :=
  decide (a.product_id = pid ∧ a.alert_type = ty ∧ a.status = .active)

/-- `AlertSystem._can_send_alert`: false iff a notification for this
(product, kind) key was dispatched less than `cooldown_minutes` ago. -/
def lookupCooldown (l : List ((Nat × AlertType) × Nat)) (k : Nat × AlertType) :
    Option Nat :=
  (l.find? (fun e => decide (e.1 = k))).map (fun e => e.2)

def canSendAlert (s : Sys) (pid : Nat) (ty : AlertType) (now : Nat) : Bool :=
  match lookupCooldown s.cooldown (pid, ty) with
  | some last => !decide (now - last < s.cooldown_minutes)
  | none => true

/-- `AlertSystem._record_alert_sent`: dictionary assignment for the key. -/
def setCooldown (l : List ((Nat × AlertType) × Nat)) (k : Nat × AlertType)
    (v : Nat) : List ((Nat × AlertType) × Nat) :=
  l.filter (fun e => !decide (e.1 = k)) ++ [(k, v)]

/-- `AlertSystem._resolve_alerts_for_product`: every Active or Acknowledged
alert of the product becomes Resolved with `resolved_at` stamped. -/
def resolveAlertsForProduct (alerts : List StockAlert) (pid : Nat) (now : Nat) :
    List StockAlert :=
  alerts.map (fun a =>
    if a.product_id = pid ∧ (a.status = .active ∨ a.status = .acknowledged) then
      { a with status := .resolved, resolved_at := some now }
    else a)

/-- `AlertSystem.check_product_stock`. Returns the new state and the alert
the call returned (`None` is `none`). Notification dispatch appends to
`notifications` and refreshes the cooldown key. -/
def checkProductStock (s : Sys) (p : Product) (now : Nat) :
    Sys × Option StockAlert :=
  if p.is_active then
    match classifyAlert p.current_stock p.min_stock_level with
    | some ty =>
      match s.alerts.find? (activeAlertP p.id ty) with
      | some _ => (s, none)
      | none =>
        let alert : StockAlert :=
          { id := s.next_alert_id, product_id := p.id, alert_type := ty,
            status := .active, stock_level_at_alert := p.current_stock,
            acknowledged_at := none, resolved_at := none }
        let s1 : Sys :=
          { s with alerts := s.alerts ++ [alert],
                   next_alert_id := s.next_alert_id + 1 }
        let s2 : Sys :=
          if canSendAlert s p.id ty now then
            { s1 with
                notifications := s1.notifications ++ [(p.id, ty, now)],
                cooldown := setCooldown s1.cooldown (p.id, ty) now }
          else s1
        (s2, some alert)
    | none =>
      ({ s with alerts := resolveAlertsForProduct s.alerts p.id now }, none)
  else (s, none)

/-- `AlertSystem.acknowledge_alert`: succeeds only from Active. -/
def acknowledgeAlert (s : Sys) (alert_id : Nat) (now : Nat) : Sys × Bool :=
  match s.alerts.find? (fun a => a.id == alert_id) with
  | some a =>
    if a.status = .active then
      ({ s with alerts := (updateFirst (fun b => b.id == alert_id)
          (fun b => { b with status := .acknowledged,
                             acknowledged_at := some now }) s.alerts) }, true)
    else (s, false)
  | none => (s, false)

/-- `AlertSystem.resolve_alert`: succeeds from any non-Resolved status. -/
def resolveAlert (s : Sys) (alert_id : Nat) (now : Nat) : Sys × Bool :=
  match s.alerts.find? (fun a => a.id == alert_id) with
  | some a =>
    if a.status ≠ .resolved then
      ({ s with alerts := (updateFirst (fun b => b.id == alert_id)
          (fun b => { b with status := .resolved,
                             resolved_at := some now }) s.alerts) }, true)
    else (s, false)
  | none => (s, false)

/-! ## Stock mutator (`inventory_manager.py`) -/

/-- The payload of the `ValueError` raised by `InventoryManager.update_stock`
("Insufficient stock. Current: {previous_stock}, Requested change:
{quantity_change}"): the spec names this failure `InsufficientStockError`. -/
inductive StockError where
  | insufficientStock (current : Int) (requested : Int)
deriving DecidableEq

/-- `InventoryManager.update_stock`. Returns `.ok (s, none)` when the product
does not exist (the source returns `None`), raises on insufficient stock
before any mutation, otherwise updates the stock counter, appends the ledger
row and runs `_check_and_create_alert` (i.e. `check_product_stock`) on the
updated product. -/
def updateStock (s : Sys) (pid : Nat) (qc : Int) (tt : TransactionType)
    (now : Nat) : Except StockError (Sys × Option StockTransaction) :=
  match s.products.find? (fun p => p.id == pid) with
  | none => .ok (s, none)
  | some p =>
    let previous := p.current_stock
    let new := previous + qc
    if new < 0 then .error (.insufficientStock previous qc)
    else
      let txn : StockTransaction :=
        { product_id := pid, transaction_type := tt, quantity := qc,
          previous_stock := previous, new_stock := new,
          unit_price := p.price, total_value := (qc.natAbs : ℚ) * p.price }
      let s1 : Sys :=
        { s with
            products := (updateFirst (fun q => q.id == pid)
              (fun q => { q with current_stock := new }) s.products),
            transactions := s.transactions ++ [txn] }
      let s2 := (checkProductStock s1 { p with current_stock := new } now).1
      .ok (s2, some txn)

/-- A mutator call as seen by the state: an exception propagates before any
mutation, so the state is unchanged on error. -/
def runUpdateStock (s : Sys) (pid : Nat) (qc : Int) (tt : TransactionType)
    (now : Nat) : Sys :=
  match updateStock s pid qc tt now with
  | .ok (s', _) => s'
  | .error _ => s

/-- `InventoryManager.sell_product`: `quantity_change = -abs(quantity)`. -/
def sellProduct (s : Sys) (pid : Nat) (q : Int) (now : Nat) :
    Except StockError (Sys × Option StockTransaction) :=
  updateStock s pid (-(q.natAbs : Int)) .sale now

/-- `InventoryManager.restock_product`: `quantity_change = abs(quantity)`. -/
def restockProduct (s : Sys) (pid : Nat) (q : Int) (now : Nat) :
    Except StockError (Sys × Option StockTransaction) :=
  updateStock s pid (q.natAbs : Int) .restock now

/-- `InventoryManager.return_product`: `quantity_change = abs(quantity)`. -/
def returnProduct (s : Sys) (pid : Nat) (q : Int) (now : Nat) :
    Except StockError (Sys × Option StockTransaction) :=
  updateStock s pid (q.natAbs : Int) .ret now

/-- `InventoryManager.adjust_stock`: `quantity_change = target - current`. -/
def adjustStock (s : Sys) (pid : Nat) (target : Int) (now : Nat) :
    Except StockError (Sys × Option StockTransaction) :=
  match s.products.find? (fun p => p.id == pid) with
  | none => .ok (s, none)
  | some p => updateStock s pid (target - p.current_stock) .adjustment now

/-- `InventoryManager.mark_expired`: `quantity_change = -abs(quantity)`. -/
def markExpired (s : Sys) (pid : Nat) (q : Int) (now : Nat) :
    Except StockError (Sys × Option StockTransaction) :=
  updateStock s pid (-(q.natAbs : Int)) .expired now

/-- `InventoryManager.mark_damaged`: `quantity_change = -abs(quantity)`. -/
def markDamaged (s : Sys) (pid : Nat) (q : Int) (now : Nat) :
    Except StockError (Sys × Option StockTransaction) :=
  updateStock s pid (-(q.natAbs : Int)) .damaged now

/-- The product row `add_product` inserts: fresh autoincrement id,
`current_stock = initial_stock`, active. -/
def newProduct (s : Sys) (initial_stock min_level : Int) (cost price : ℚ)
    (sup : Option Nat) : Product :=
  { id := s.next_product_id, current_stock := initial_stock,
    min_stock_level := min_level, cost := cost, price := price,
    is_active := true, supplier_id := sup }

/-- The initial-stock ledger row of `add_product` via `_create_transaction`
with its defaulted fields `previous_stock = current_stock - quantity` and
`new_stock = current_stock`, where `current_stock = initial_stock` here. -/
def initTxn (s : Sys) (initial_stock : Int) (price : ℚ) : StockTransaction :=
  { product_id := s.next_product_id, transaction_type := .restock,
    quantity := initial_stock,
    previous_stock := initial_stock - initial_stock,
    new_stock := initial_stock,
    unit_price := price,
    total_value := (initial_stock.natAbs : ℚ) * price }

/-- `InventoryManager.add_product` before the final alert evaluation:
inserts the product row, and when `initial_stock > 0` appends the
initial-stock ledger row. -/
def addProductMid (s : Sys) (initial_stock min_level : Int) (cost price : ℚ)
    (sup : Option Nat) : Sys × Product :=
  let p : Product := newProduct s initial_stock min_level cost price sup
  let s1 : Sys :=
    { s with products := s.products ++ [p],
             next_product_id := s.next_product_id + 1 }
  let s2 : Sys :=
    if 0 < initial_stock then
      { s1 with transactions := s1.transactions ++ [initTxn s initial_stock price] }
    else s1
  (s2, p)

/-- `InventoryManager.add_product`: the insertion plus the final
`_check_and_create_alert` on the new product. -/
def addProduct (s : Sys) (initial_stock min_level : Int) (cost price : ℚ)
    (sup : Option Nat) (now : Nat) : Sys × Product :=
  let mid := addProductMid s initial_stock min_level cost price sup
  ((checkProductStock mid.1 mid.2 now).1, mid.2)

/-- `InventoryManager.update_product` restricted to the `cost` field: the
reflection-based attribute update touches only the product row (it skips
`id`, `created_at` and `current_stock`, and never looks at orders). -/
def updateProductCost (s : Sys) (pid : Nat) (c : ℚ) : Sys :=
  { s with products := (updateFirst (fun p => p.id == pid)
      (fun p => { p with cost := c }) s.products) }

/-! ## Replenishment workflow (`restock_manager.py`) -/

/-- Failures of `RestockManager.create_restock_order` (`ValueError`s in the
source; the spec names the third `SupplierMismatchError`). -/
inductive RestockError where
  | supplierNotFound (supplier_id : Nat)
  | productNotFound (product_id : Nat)
  | supplierMismatch (product_id : Nat)
deriving DecidableEq

/-- The item-building loop of `create_restock_order`: look the product up,
check it belongs to the supplier, snapshot `unit_cost = product.cost` and
`total_price = quantity * unit_cost`. -/
def buildOrderItems (ps : List Product) (supplier_id : Nat) :
    List (Nat × Int) → Except RestockError (List RestockOrderItem)
  | [] => .ok []
  | (pid, qty) :: rest =>
    match ps.find? (fun p => p.id == pid) with
    | none => .error (.productNotFound pid)
    | some p =>
      if p.supplier_id = some supplier_id then
        match buildOrderItems ps supplier_id rest with
        | .ok tail =>
          .ok ({ product_id := pid, quantity_ordered := qty,
                 quantity_received := 0, unit_cost := p.cost,
                 total_price := (qty : ℚ) * p.cost } :: tail)
        | .error e => .error e
      else .error (.supplierMismatch pid)

/-- `RestockManager.create_restock_order`: validates the supplier, builds the
line items, sets `total_amount` to the accumulated sum of line totals and
`expected_delivery = now + supplier.lead_time_days`, and persists the order
in `Pending` status. -/
def createRestockOrder (s : Sys) (supplier_id : Nat)
    (items : List (Nat × Int)) (now : Nat) :
    Except RestockError (Sys × RestockOrder) :=
  match s.suppliers.find? (fun sup => sup.id == supplier_id) with
  | none => .error (.supplierNotFound supplier_id)
  | some sup =>
    match buildOrderItems s.products supplier_id items with
    | .error e => .error e
    | .ok its =>
      let order : RestockOrder :=
        { id := s.next_order_id, supplier_id := supplier_id,
          status := .pending,
          total_amount := (its.map (fun it => it.total_price)).sum,
          items := its,
          expected_delivery := some (now + sup.lead_time_days),
          actual_delivery := none }
      .ok ({ s with orders := s.orders ++ [order],
                    next_order_id := s.next_order_id + 1 }, order)

/-- `RestockManager.confirm_order`: `Pending → Confirmed`, else `false`. -/
def confirmOrder (s : Sys) (oid : Nat) : Sys × Bool :=
  match s.orders.find? (fun o => o.id == oid) with
  | some o =>
    if o.status = .pending then
      ({ s with orders := (updateFirst (fun x => x.id == oid)
          (fun x => { x with status := .confirmed }) s.orders) }, true)
    else (s, false)
  | none => (s, false)

/-- `RestockManager.mark_shipped`: `Confirmed → Shipped`, else `false`. -/
def markShipped (s : Sys) (oid : Nat) : Sys × Bool :=
  match s.orders.find? (fun o => o.id == oid) with
  | some o =>
    if o.status = .confirmed then
      ({ s with orders := (updateFirst (fun x => x.id == oid)
          (fun x => { x with status := .shipped }) s.orders) }, true)
    else (s, false)
  | none => (s, false)

/-- `RestockManager.cancel_order`: allowed from `Pending` or `Confirmed`. -/
def cancelOrder (s : Sys) (oid : Nat) : Sys × Bool :=
  match s.orders.find? (fun o => o.id == oid) with
  | some o =>
    if o.status = .pending ∨ o.status = .confirmed then
      ({ s with orders := (updateFirst (fun x => x.id == oid)
          (fun x => { x with status := .cancelled }) s.orders) }, true)
    else (s, false)
  | none => (s, false)

/-- The per-item received quantity of `receive_order`: the caller's override
for this product when present, else `quantity_ordered`. -/
def recvQty (received : Option (List (Nat × Int))) (it : RestockOrderItem) :
    Int :=
  match received with
  | some ris =>
    match ris.find? (fun ri => ri.1 == it.product_id) with
    | some ri => ri.2
    | none => it.quantity_ordered
  | none => it.quantity_ordered

/-- The item loop of `receive_order`: for each line item record
`quantity_received`, increment the product's stock counter directly and
append a `Restock` ledger row priced at the item's snapshot `unit_cost`.
Returns the updated products, the created transactions in order, and the
updated items. -/
def receiveItems (received : Option (List (Nat × Int))) :
    List RestockOrderItem → List Product →
    List Product × List StockTransaction × List RestockOrderItem
  | [], ps => (ps, [], [])
  | it :: rest, ps =>
    let qr := recvQty received it
    let previous := stockOfP ps it.product_id
    let txn : StockTransaction :=
      { product_id := it.product_id, transaction_type := .restock,
        quantity := qr, previous_stock := previous,
        new_stock := previous + qr, unit_price := it.unit_cost,
        total_value := (qr : ℚ) * it.unit_cost }
    let ps1 := updateFirst (fun p => p.id == it.product_id)
      (fun p => { p with current_stock := p.current_stock + qr }) ps
    let r := receiveItems received rest ps1
    (r.1, txn :: r.2.1, { it with quantity_received := qr } :: r.2.2)

/-- `RestockManager.receive_order`. Fails (returning `(False, [])`, state
untouched) unless the order is `Confirmed` or `Shipped`; otherwise processes
every line item, marks the order `Delivered` and stamps
`actual_delivery = now`. No alert evaluation is invoked on this path: the
source mutates `product.current_stock` directly and never constructs an
`AlertSystem`. -/
def receiveOrder (s : Sys) (oid : Nat) (received : Option (List (Nat × Int)))
    (now : Nat) : Sys × Bool × List StockTransaction :=
  match s.orders.find? (fun o => o.id == oid) with
  | none => (s, false, [])
  | some o =>
    if o.status = .confirmed ∨ o.status = .shipped then
      let r := receiveItems received o.items s.products
      let o' : RestockOrder :=
        { o with status := .delivered, actual_delivery := some now,
                 items := r.2.2 }
      ({ s with
           products := r.1,
           transactions := s.transactions ++ r.2.1,
           orders := updateFirst (fun x => x.id == oid) (fun _ => o')
             s.orders },
       true, r.2.1)
    else (s, false, [])

/-! ## Operations and reachability -/

/-- The operations of the core, as one step alphabet. Errors and `None`
returns leave the state unchanged. `check` is a direct
`check_product_stock` call (as the background monitor performs on each
product snapshot). -/
inductive SysOp where
  | update (pid : Nat) (qc : Int) (tt : TransactionType) (now : Nat)
  | sell (pid : Nat) (q : Int) (now : Nat)
  | restock (pid : Nat) (q : Int) (now : Nat)
  | ret (pid : Nat) (q : Int) (now : Nat)
  | adjust (pid : Nat) (target : Int) (now : Nat)
  | expire (pid : Nat) (q : Int) (now : Nat)
  | damage (pid : Nat) (q : Int) (now : Nat)
  | addProd (initial_stock min_level : Int) (cost price : ℚ)
      (sup : Option Nat) (now : Nat)
  | check (p : Product) (now : Nat)
  | ack (alert_id : Nat) (now : Nat)
  | resolve (alert_id : Nat) (now : Nat)
  | createOrder (supplier_id : Nat) (items : List (Nat × Int)) (now : Nat)
  | confirm (oid : Nat)
  | ship (oid : Nat)
  | cancel (oid : Nat)
  | receive (oid : Nat) (received : Option (List (Nat × Int))) (now : Nat)
  | updCost (pid : Nat) (c : ℚ)

/-- One step of the system. -/
def step (s : Sys) : SysOp → Sys
  | .update pid qc tt now => runUpdateStock s pid qc tt now
  | .sell pid q now => runUpdateStock s pid (-(q.natAbs : Int)) .sale now
  | .restock pid q now => runUpdateStock s pid (q.natAbs : Int) .restock now
  | .ret pid q now => runUpdateStock s pid (q.natAbs : Int) .ret now
  | .adjust pid target now =>
    match s.products.find? (fun p => p.id == pid) with
    | none => s
    | some p => runUpdateStock s pid (target - p.current_stock) .adjustment now
  | .expire pid q now => runUpdateStock s pid (-(q.natAbs : Int)) .expired now
  | .damage pid q now => runUpdateStock s pid (-(q.natAbs : Int)) .damaged now
  | .addProd i m c pr sup now => (addProduct s i m c pr sup now).1
  | .check p now => (checkProductStock s p now).1
  | .ack aid now => (acknowledgeAlert s aid now).1
  | .resolve aid now => (resolveAlert s aid now).1
  | .createOrder sid items now =>
    match createRestockOrder s sid items now with
    | .ok (s', _) => s'
    | .error _ => s
  | .confirm oid => (confirmOrder s oid).1
  | .ship oid => (markShipped s oid).1
  | .cancel oid => (cancelOrder s oid).1
  | .receive oid received now => (receiveOrder s oid received now).1
  | .updCost pid c => updateProductCost s pid c

/-- The stock-mutator sub-alphabet of claim C1: `update_stock` and its
convenience wrappers only. -/
def MutOp (op : SysOp) : Prop :=
  match op with
  | .update _ _ _ _ | .sell _ _ _ | .restock _ _ _ | .ret _ _ _
  | .adjust _ _ _ | .expire _ _ _ | .damage _ _ _ => True
  | _ => False

/-! ## Helper lemmas -/

theorem mem_updateFirst {p : α → Bool} {f : α → α} {l : List α} {a : α}
    (h : a ∈ updateFirst p f l) :
    a ∈ l ∨ ∃ b, b ∈ l ∧ p b = true ∧ a = f b := by
  induction l with
  | nil => simp [updateFirst] at h
  | cons c cs ih =>
    unfold updateFirst at h
    by_cases hc : p c = true
    · rw [if_pos hc] at h
      rcases List.mem_cons.mp h with h1 | h1
      · exact Or.inr ⟨c, List.mem_cons_self _ _, hc, h1⟩
      · exact Or.inl (List.mem_cons_of_mem _ h1)
    · rw [if_neg hc] at h
      rcases List.mem_cons.mp h with h1 | h1
      · exact Or.inl (h1 ▸ List.mem_cons_self _ _)
      · rcases ih h1 with h2 | ⟨b, hb, hpb, hab⟩
        · exact Or.inl (List.mem_cons_of_mem _ h2)
        · exact Or.inr ⟨b, List.mem_cons_of_mem _ hb, hpb, hab⟩

theorem map_updateFirst {p : α → Bool} {f : α → α} {g : α → β}
    (hfg : ∀ a, g (f a) = g a) (l : List α) :
    (updateFirst p f l).map g = l.map g := by
  induction l with
  | nil => rfl
  | cons c cs ih =>
    unfold updateFirst
    by_cases hc : p c = true
    · rw [if_pos hc]; simp [hfg]
    · rw [if_neg hc]; simp [ih]

theorem countP_updateFirst_le {q p : α → Bool} {f : α → α}
    (hf : ∀ a, q (f a) = true → q a = true) (l : List α) :
    (updateFirst p f l).countP q ≤ l.countP q := by
  induction l with
  | nil => simp [updateFirst]
  | cons c cs ih =>
    unfold updateFirst
    by_cases hc : p c = true
    · rw [if_pos hc]
      simp only [List.countP_cons]
      by_cases hq : q (f c) = true
      · simp [hq, hf c hq]
      · by_cases hq2 : q c = true <;> simp [hq, hq2]
    · rw [if_neg hc]
      simp only [List.countP_cons]
      by_cases hq : q c = true <;> simp [hq] <;> omega

theorem updateFirst_of_find?_none {p : α → Bool} {f : α → α} {l : List α}
    (h : l.find? p = none) : updateFirst p f l = l := by
  induction l with
  | nil => rfl
  | cons c cs ih =>
    rw [List.find?_cons] at h
    unfold updateFirst
    by_cases hc : p c = true
    · simp [hc] at h
    · rw [if_neg hc]
      rw [ih (by simpa [hc] using h)]

theorem find?_updateFirst_self {p : α → Bool} {f : α → α} {l : List α} {a : α}
    (h : l.find? p = some a) (hf : ∀ b, p b = true → p (f b) = true) :
    (updateFirst p f l).find? p = some (f a) := by
  induction l with
  | nil => simp at h
  | cons c cs ih =>
    unfold updateFirst
    by_cases hc : p c = true
    · rw [if_pos hc]
      rw [List.find?_cons_of_pos _ hc] at h
      have h' : c = a := by simpa using h
      rw [List.find?_cons_of_pos _ (hf c hc), h']
    · rw [if_neg hc]
      rw [List.find?_cons_of_neg _ hc] at h
      rw [List.find?_cons_of_neg _ hc]
      exact ih h

theorem stockOfP_updateFirst_ne {pid pid' : Nat} {f : Product → Product}
    (hid : ∀ q, (f q).id = q.id) (hne : pid ≠ pid') (ps : List Product) :
    stockOfP (updateFirst (fun q => q.id == pid) f ps) pid' =
      stockOfP ps pid' := by
  induction ps with
  | nil => rfl
  | cons c cs ih =>
    unfold updateFirst
    by_cases hc : (c.id == pid) = true
    · rw [if_pos hc]
      have hcpid : c.id = pid := by simpa using hc
      have h1 : ((f c).id == pid') = false := by
        simp [hid c, hcpid]; exact hne
      have h2 : (c.id == pid') = false := by
        simp [hcpid]; exact hne
      simp only [stockOfP, List.find?_cons, h1, h2]
    · rw [if_neg hc]
      simp only [stockOfP, List.find?_cons]
      by_cases h2 : (c.id == pid') = true
      · simp [h2]
      · simp only [h2]
        exact ih

theorem stockOfP_updateFirst_found {pid : Nat} {f : Product → Product}
    {ps : List Product} {p : Product}
    (h : ps.find? (fun q => q.id == pid) = some p)
    (hid : ∀ q, (f q).id = q.id) :
    stockOfP (updateFirst (fun q => q.id == pid) f ps) pid =
      (f p).current_stock := by
  have := find?_updateFirst_self (f := f) h
    (fun b hb => by simpa [hid b] using hb)
  simp only [stockOfP, this]

theorem stockOfP_find?_eq {ps : List Product} {pid : Nat} {p : Product}
    (h : ps.find? (fun q => q.id == pid) = some p) :
    stockOfP ps pid = p.current_stock := by
  simp only [stockOfP, h]

/-- `checkProductStock` touches only the alert-engine state: the product,
ledger, supplier and order tables and their id counters are unchanged. -/
theorem checkProductStock_products (s : Sys) (p : Product) (now : Nat) :
    (checkProductStock s p now).1.products = s.products := by
  simp only [checkProductStock]
  repeat' split
  all_goals rfl

theorem checkProductStock_transactions (s : Sys) (p : Product) (now : Nat) :
    (checkProductStock s p now).1.transactions = s.transactions := by
  simp only [checkProductStock]
  repeat' split
  all_goals rfl

theorem checkProductStock_suppliers (s : Sys) (p : Product) (now : Nat) :
    (checkProductStock s p now).1.suppliers = s.suppliers := by
  simp only [checkProductStock]
  repeat' split
  all_goals rfl

theorem checkProductStock_orders (s : Sys) (p : Product) (now : Nat) :
    (checkProductStock s p now).1.orders = s.orders := by
  simp only [checkProductStock]
  repeat' split
  all_goals rfl

theorem checkProductStock_next_product_id (s : Sys) (p : Product) (now : Nat) :
    (checkProductStock s p now).1.next_product_id = s.next_product_id := by
  simp only [checkProductStock]
  repeat' split
  all_goals rfl

theorem checkProductStock_next_order_id (s : Sys) (p : Product) (now : Nat) :
    (checkProductStock s p now).1.next_order_id = s.next_order_id := by
  simp only [checkProductStock]
  repeat' split
  all_goals rfl

theorem checkProductStock_cooldown_minutes (s : Sys) (p : Product) (now : Nat) :
    (checkProductStock s p now).1.cooldown_minutes = s.cooldown_minutes := by
  simp only [checkProductStock]
  repeat' split
  all_goals rfl

theorem sumQL_append (l l' : List StockTransaction) (pid : Nat) :
    sumQL (l ++ l') pid = sumQL l pid + sumQL l' pid := by
  simp [sumQL]

theorem sumQL_single_self {t : StockTransaction} {pid : Nat}
    (h : t.product_id = pid) : sumQL [t] pid = t.quantity := by
  simp [sumQL, h]

theorem sumQL_single_ne {t : StockTransaction} {pid : Nat}
    (h : t.product_id ≠ pid) : sumQL [t] pid = 0 := by
  simp [sumQL, h]

/-! ## The stock mutator: branch characterisations -/

theorem runUpdateStock_of_find?_none {s : Sys} {pid : Nat} {qc : Int}
    {tt : TransactionType} {now : Nat}
    (h : s.products.find? (fun p => p.id == pid) = none) :
    runUpdateStock s pid qc tt now = s := by
  simp only [runUpdateStock, updateStock, h]

theorem runUpdateStock_of_insufficient {s : Sys} {pid : Nat} {qc : Int}
    {tt : TransactionType} {now : Nat} {p : Product}
    (h : s.products.find? (fun q => q.id == pid) = some p)
    (hneg : p.current_stock + qc < 0) :
    runUpdateStock s pid qc tt now = s := by
  simp only [runUpdateStock, updateStock, h, if_pos hneg]

/-- The intermediate state of a successful `update_stock` call, right after
the counter update and ledger append but before the alert evaluation. -/
def updateStockMid (s : Sys) (pid : Nat) (qc : Int) (tt : TransactionType)
    (p : Product) : Sys :=
  { s with
      products := (updateFirst (fun q => q.id == pid)
        (fun q => { q with current_stock := p.current_stock + qc })
        s.products),
      transactions := s.transactions ++
        [{ product_id := pid, transaction_type := tt, quantity := qc,
           previous_stock := p.current_stock,
           new_stock := p.current_stock + qc,
           unit_price := p.price,
           total_value := (qc.natAbs : ℚ) * p.price }] }

theorem runUpdateStock_of_ok {s : Sys} {pid : Nat} {qc : Int}
    {tt : TransactionType} {now : Nat} {p : Product}
    (h : s.products.find? (fun q => q.id == pid) = some p)
    (hpos : ¬ p.current_stock + qc < 0) :
    runUpdateStock s pid qc tt now =
      (checkProductStock (updateStockMid s pid qc tt p)
        { p with current_stock := p.current_stock + qc } now).1 := by
  simp only [runUpdateStock, updateStock, h, if_neg hpos, updateStockMid]

theorem stockOf_updateStockMid_self {s : Sys} {pid : Nat} {qc : Int}
    {tt : TransactionType} {p : Product}
    (h : s.products.find? (fun q => q.id == pid) = some p) :
    stockOf (updateStockMid s pid qc tt p) pid = p.current_stock + qc := by
  simpa [stockOf, updateStockMid] using
    stockOfP_updateFirst_found (f := fun q =>
      { q with current_stock := p.current_stock + qc }) h (fun _ => rfl)

theorem stockOf_updateStockMid_ne {s : Sys} {pid pid' : Nat} {qc : Int}
    {tt : TransactionType} {p : Product} (hne : pid ≠ pid') :
    stockOf (updateStockMid s pid qc tt p) pid' = stockOf s pid' := by
  simpa [stockOf, updateStockMid] using
    stockOfP_updateFirst_ne (f := fun q =>
      { q with current_stock := p.current_stock + qc })
      (fun _ => rfl) hne s.products

/-! ## Claim C1: stock non-negativity and ledger-sum agreement -/

/-- The invariant of claim C1: every product's stock counter is
non-negative and equals the sum of the committed deltas of its ledger. -/
def StockLedgerInv (s : Sys) : Prop :=
  (∀ pid, stockOf s pid = sumQ s pid) ∧
  ∀ p ∈ s.products, 0 ≤ p.current_stock

theorem runUpdateStock_inv {s : Sys} {pid : Nat} {qc : Int}
    {tt : TransactionType} {now : Nat} (hinv : StockLedgerInv s) :
    StockLedgerInv (runUpdateStock s pid qc tt now) := by
  rcases hfind : s.products.find? (fun q => q.id == pid) with _ | p
  · rwa [runUpdateStock_of_find?_none hfind]
  · by_cases hneg : p.current_stock + qc < 0
    · rwa [runUpdateStock_of_insufficient hfind hneg]
    · rw [runUpdateStock_of_ok hfind hneg]
      set mid := updateStockMid s pid qc tt p with hmid
      have hprod := checkProductStock_products mid
        { p with current_stock := p.current_stock + qc } now
      have htx := checkProductStock_transactions mid
        { p with current_stock := p.current_stock + qc } now
      constructor
      · intro pid'
        rw [stockOf, hprod, ← stockOf, sumQ, htx]
        by_cases hpp : pid = pid'
        · subst hpp
          rw [stockOf_updateStockMid_self hfind]
          have h1 : sumQL mid.transactions pid =
              sumQ s pid + qc := by
            rw [hmid]
            simp only [updateStockMid]
            rw [sumQL_append, sumQL_single_self rfl]
            rfl
          rw [h1, ← hinv.1 pid, stockOf, stockOfP,  hfind]
        · rw [stockOf_updateStockMid_ne hpp]
          have h1 : sumQL mid.transactions pid' = sumQ s pid' := by
            rw [hmid]
            simp only [updateStockMid]
            rw [sumQL_append, sumQL_single_ne hpp]
            simp [sumQ]
          rw [h1, hinv.1 pid']
      · intro q hq
        rw [hprod] at hq
        rw [hmid] at hq
        simp only [updateStockMid] at hq
        rcases mem_updateFirst hq with hmem | ⟨b, _, _, hb⟩
        · exact hinv.2 q hmem
        · rw [hb]
          simpa using not_lt.mp hneg

/-- Any step from the stock-mutator sub-alphabet preserves the C1
invariant. -/
theorem stepMut_inv {s : Sys} {op : SysOp} (hop : MutOp op)
    (hinv : StockLedgerInv s) : StockLedgerInv (step s op) := by
  cases op with
  | update pid qc tt now => exact runUpdateStock_inv hinv
  | sell pid q now => exact runUpdateStock_inv hinv
  | restock pid q now => exact runUpdateStock_inv hinv
  | ret pid q now => exact runUpdateStock_inv hinv
  | adjust pid target now =>
    simp only [step]
    rcases hfind : s.products.find? (fun p => p.id == pid) with _ | p
    · rw [hfind]
      exact hinv
    · rw [hfind]
      exact runUpdateStock_inv hinv
  | expire pid q now => exact runUpdateStock_inv hinv
  | damage pid q now => exact runUpdateStock_inv hinv
  | addProd i m c pr sup now => exact absurd hop (by simp [MutOp])
  | check p now => exact absurd hop (by simp [MutOp])
  | ack aid now => exact absurd hop (by simp [MutOp])
  | resolve aid now => exact absurd hop (by simp [MutOp])
  | createOrder sid items now => exact absurd hop (by simp [MutOp])
  | confirm oid => exact absurd hop (by simp [MutOp])
  | ship oid => exact absurd hop (by simp [MutOp])
  | cancel oid => exact absurd hop (by simp [MutOp])
  | receive oid received now => exact absurd hop (by simp [MutOp])
  | updCost pid c => exact absurd hop (by simp [MutOp])

theorem foldl_mut_inv {ops : List SysOp} {s₀ : Sys}
    (hops : ∀ op ∈ ops, MutOp op) (hinv : StockLedgerInv s₀) :
    StockLedgerInv (ops.foldl step s₀) := by
  induction ops generalizing s₀ with
  | nil => exact hinv
  | cons op rest ih =>
    exact ih (fun o ho => hops o (List.mem_cons_of_mem _ ho))
      (stepMut_inv (hops op (List.mem_cons_self _ _)) hinv)

theorem stockOf_runUpdateStock_self {s : Sys} {pid : Nat} {qc : Int}
    {tt : TransactionType} {now : Nat} {p : Product}
    (hfind : s.products.find? (fun q => q.id == pid) = some p)
    (hpos : ¬ p.current_stock + qc < 0) :
    stockOf (runUpdateStock s pid qc tt now) pid = p.current_stock + qc := by
  rw [runUpdateStock_of_ok hfind hpos, stockOf, checkProductStock_products,
    ← stockOf, stockOf_updateStockMid_self hfind]

/-- C1. For all sequences of stock-mutator calls (`update_stock` and its
convenience wrappers `sell_product`, `restock_product`, `return_product`,
`adjust_stock`, `mark_expired`, `mark_damaged`), started from any state
satisfying the stock/ledger invariant, every product's `current_stock` stays
non-negative at every intermediate state and always equals the sum of the
quantity deltas of all committed `StockTransaction` rows for that product. -/
theorem stock_nonneg_and_ledger_sum (ops : List SysOp) (s₀ : Sys)
    (hops : ∀ op ∈ ops, MutOp op) (hinv : StockLedgerInv s₀) :
    ∀ n pid, 0 ≤ stockOf ((ops.take n).foldl step s₀) pid ∧
      stockOf ((ops.take n).foldl step s₀) pid =
        sumQ ((ops.take n).foldl step s₀) pid := by
  intro n pid
  have hinv' : StockLedgerInv ((ops.take n).foldl step s₀) :=
    foldl_mut_inv (fun op ho => hops op (List.take_subset n ops ho)) hinv
  refine ⟨?_, hinv'.1 pid⟩
  rcases hfind : ((ops.take n).foldl step s₀).products.find?
      (fun q => q.id == pid) with _ | p
  · simp [stockOf, stockOfP, hfind]
  · rw [stockOf, stockOfP, hfind]
    exact hinv'.2 p (List.mem_of_find?_eq_some hfind)

/-- The base state used by the concrete witnesses: one active product
(id 1, stock 3, minimum 10, cost 2, price 5), no history. -/
def sysW : Sys :=
  { products := [{ id := 1, current_stock := 3, min_stock_level := 10,
                   cost := 2, price := 5, is_active := true,
                   supplier_id := some 1 }],
    transactions := [{ product_id := 1, transaction_type := .restock,
                       quantity := 3, previous_stock := 0, new_stock := 3,
                       unit_price := 5, total_value := 15 }],
    alerts := [], suppliers := [{ id := 1, lead_time_days := 3 }],
    orders := [], cooldown := [], notifications := [],
    cooldown_minutes := 30, next_product_id := 2, next_alert_id := 1,
    next_order_id := 1 }

theorem sysW_inv : StockLedgerInv sysW := by
  constructor
  · intro pid
    by_cases h : 1 = pid
    · subst h
      decide
    · have hb : ((1 : Nat) == pid) = false := by
        simpa using h
      simp [stockOf, stockOfP, sumQ, sumQL, sysW, List.find?, hb,
        List.filter]
  · intro p hp
    simp only [sysW, List.mem_singleton] at hp
    rw [hp]
    decide

/-- Witness for C1 at a concrete run: restock 5, sell 3, sell 5 (the last
call fails for insufficient stock and mutates nothing). -/
theorem stock_nonneg_and_ledger_sum_witness :
    0 ≤ stockOf (([SysOp.restock 1 5 0, SysOp.sell 1 3 0,
        SysOp.sell 1 5 0].take 3).foldl step sysW) 1 ∧
      stockOf (([SysOp.restock 1 5 0, SysOp.sell 1 3 0,
        SysOp.sell 1 5 0].take 3).foldl step sysW) 1 =
      sumQ (([SysOp.restock 1 5 0, SysOp.sell 1 3 0,
        SysOp.sell 1 5 0].take 3).foldl step sysW) 1 :=
  stock_nonneg_and_ledger_sum
    [SysOp.restock 1 5 0, SysOp.sell 1 3 0, SysOp.sell 1 5 0] sysW
    (by intro op ho; fin_cases ho <;> trivial) sysW_inv 3 1

/-- C2. When the resulting stock would be negative, `update_stock` raises
the insufficient-stock error carrying the current stock and the requested
delta, and performs no mutation at all: the state (stock counter and
ledger included) is unchanged. -/
theorem updateStock_insufficient (s : Sys) (pid : Nat) (qc : Int)
    (tt : TransactionType) (now : Nat) (p : Product)
    (hfind : s.products.find? (fun q => q.id == pid) = some p)
    (hneg : p.current_stock + qc < 0) :
    updateStock s pid qc tt now =
      .error (.insufficientStock p.current_stock qc) ∧
    runUpdateStock s pid qc tt now = s := by
  constructor
  · simp only [updateStock, hfind, if_pos hneg]
  · exact runUpdateStock_of_insufficient hfind hneg

/-- Witness for C2, the spec scenario: `sell_product(quantity=4)` on a
product with stock 3 raises the insufficient-stock error carrying
(current = 3, requested = -4) and leaves the stock at 3. -/
theorem updateStock_insufficient_witness :
    sellProduct sysW 1 4 0 =
      .error (.insufficientStock 3 (-4)) ∧
    runUpdateStock sysW 1 (-4) .sale 0 = sysW ∧
    stockOf sysW 1 = 3 := by
  have h := updateStock_insufficient sysW 1 (-4) .sale 0
    { id := 1, current_stock := 3, min_stock_level := 10,
      cost := 2, price := 5, is_active := true, supplier_id := some 1 }
    (by decide) (by decide)
  exact ⟨h.1, h.2, by decide⟩

/-- C10. The convenience wrappers normalize the sign of the delta they hand
to `update_stock`: `sell_product`, `mark_expired` and `mark_damaged` always
pass `-abs(quantity)` and (when the stock suffices) decrease the stock by
`|q|`; `restock_product` and `return_product` always pass `abs(quantity)`
and (when the current stock is non-negative) increase it by `|q|` — for
every integer `q`, including negative ones, so the caller's sign never
reverses the direction of the change. -/
theorem wrappers_normalize_sign (s : Sys) (pid : Nat) (q : Int) (now : Nat)
    (p : Product) (hfind : s.products.find? (fun x => x.id == pid) = some p) :
    (sellProduct s pid q now = updateStock s pid (-(q.natAbs : Int)) .sale now
     ∧ markExpired s pid q now =
         updateStock s pid (-(q.natAbs : Int)) .expired now
     ∧ markDamaged s pid q now =
         updateStock s pid (-(q.natAbs : Int)) .damaged now
     ∧ restockProduct s pid q now =
         updateStock s pid (q.natAbs : Int) .restock now
     ∧ returnProduct s pid q now =
         updateStock s pid (q.natAbs : Int) .ret now)
    ∧ ((q.natAbs : Int) ≤ p.current_stock →
        stockOf (step s (.sell pid q now)) pid =
          p.current_stock - (q.natAbs : Int)
        ∧ stockOf (step s (.expire pid q now)) pid =
          p.current_stock - (q.natAbs : Int)
        ∧ stockOf (step s (.damage pid q now)) pid =
          p.current_stock - (q.natAbs : Int))
    ∧ (0 ≤ p.current_stock →
        stockOf (step s (.restock pid q now)) pid =
          p.current_stock + (q.natAbs : Int)
        ∧ stockOf (step s (.ret pid q now)) pid =
          p.current_stock + (q.natAbs : Int)) := by
  refine ⟨⟨rfl, rfl, rfl, rfl, rfl⟩, ?_, ?_⟩
  · intro hle
    have hpos : ¬ p.current_stock + -(q.natAbs : Int) < 0 := by omega
    have h1 := @stockOf_runUpdateStock_self s pid _ .sale now p hfind hpos
    have h2 := @stockOf_runUpdateStock_self s pid _ .expired now p hfind hpos
    have h3 := @stockOf_runUpdateStock_self s pid _ .damaged now p hfind hpos
    refine ⟨?_, ?_, ?_⟩
    · rw [step, h1]; omega
    · rw [step, h2]; omega
    · rw [step, h3]; omega
  · intro hge
    have hpos : ¬ p.current_stock + (q.natAbs : Int) < 0 := by omega
    have h1 := @stockOf_runUpdateStock_self s pid _ .restock now p hfind hpos
    have h2 := @stockOf_runUpdateStock_self s pid _ .ret now p hfind hpos
    exact ⟨by rw [step, h1], by rw [step, h2]⟩

/-- Witness for C10 with a negative caller-supplied quantity: selling
`q = -2` still decreases the stock (from 3 to 1), restocking `q = -2`
still increases it (from 3 to 5). -/
theorem wrappers_normalize_sign_witness :
    stockOf (step sysW (.sell 1 (-2) 0)) 1 = 3 - ((-2 : Int).natAbs : Int)
    ∧ stockOf (step sysW (.restock 1 (-2) 0)) 1 =
        3 + ((-2 : Int).natAbs : Int) := by
  have h := wrappers_normalize_sign sysW 1 (-2) 0
    { id := 1, current_stock := 3, min_stock_level := 10,
      cost := 2, price := 5, is_active := true, supplier_id := some 1 }
    (by decide)
  exact ⟨(h.2.1 (by decide)).1, (h.2.2 (by decide)).1⟩

/-! ## Alert engine: branch characterisations -/

/-- The alert row `check_product_stock` creates when no Active alert of the
classified kind exists. -/
def newAlert (s : Sys) (p : Product) (ty : AlertType) : StockAlert :=
  { id := s.next_alert_id, product_id := p.id, alert_type := ty,
    status := .active, stock_level_at_alert := p.current_stock,
    acknowledged_at := none, resolved_at := none }

theorem checkProductStock_of_inactive {s : Sys} {p : Product} {now : Nat}
    (hact : p.is_active = false) :
    checkProductStock s p now = (s, none) := by
  simp [checkProductStock, hact]

theorem checkProductStock_of_existing {s : Sys} {p : Product} {now : Nat}
    {ty : AlertType} {a : StockAlert} (hact : p.is_active = true)
    (hcl : classifyAlert p.current_stock p.min_stock_level = some ty)
    (hfind : s.alerts.find? (activeAlertP p.id ty) = some a) :
    checkProductStock s p now = (s, none) := by
  simp [checkProductStock, hact, hcl, hfind]

theorem checkProductStock_of_healthy {s : Sys} {p : Product} {now : Nat}
    (hact : p.is_active = true)
    (hcl : classifyAlert p.current_stock p.min_stock_level = none) :
    checkProductStock s p now =
      ({ s with alerts := resolveAlertsForProduct s.alerts p.id now },
       none) := by
  simp [checkProductStock, hact, hcl]

theorem checkProductStock_of_new {s : Sys} {p : Product} {now : Nat}
    {ty : AlertType} (hact : p.is_active = true)
    (hcl : classifyAlert p.current_stock p.min_stock_level = some ty)
    (hfind : s.alerts.find? (activeAlertP p.id ty) = none) :
    (checkProductStock s p now).1.alerts = s.alerts ++ [newAlert s p ty] ∧
    (checkProductStock s p now).2 = some (newAlert s p ty) := by
  simp only [checkProductStock, hact, hcl, hfind, if_true]
  split <;> exact ⟨rfl, rfl⟩

/-! ## Claim C5: at most one Active alert per (product, kind) -/

/-- At most one Active alert per (product, alert kind) pair. -/
def uniqueActiveL (alerts : List StockAlert) : Prop :=
  ∀ pid ty, alerts.countP (activeAlertP pid ty) ≤ 1

def uniqueActive (s : Sys) : Prop :=
  uniqueActiveL s.alerts

theorem resolveAlertsForProduct_countP_le (alerts : List StockAlert)
    (pid₀ : Nat) (now : Nat) (pid : Nat) (ty : AlertType) :
    (resolveAlertsForProduct alerts pid₀ now).countP (activeAlertP pid ty) ≤
      alerts.countP (activeAlertP pid ty) := by
  unfold resolveAlertsForProduct
  rw [List.countP_map]
  refine List.countP_mono_left ?_
  intro a _ h
  simp only [Function.comp] at h
  split at h
  · simp [activeAlertP] at h
  · exact h

theorem checkProductStock_uniqueActive {s : Sys} {p : Product} {now : Nat}
    (hu : uniqueActiveL s.alerts) :
    uniqueActiveL (checkProductStock s p now).1.alerts := by
  rcases hact : p.is_active with _ | _
  · rw [checkProductStock_of_inactive hact]
    exact hu
  · rcases hcl : classifyAlert p.current_stock p.min_stock_level with _ | ty
    · rw [checkProductStock_of_healthy hact hcl]
      intro pid ty
      exact le_trans (resolveAlertsForProduct_countP_le _ _ _ _ _) (hu pid ty)
    · rcases hfind : s.alerts.find? (activeAlertP p.id ty) with _ | a
      · rw [(checkProductStock_of_new hact hcl hfind).1]
        intro pid' ty'
        rw [List.countP_append]
        by_cases hkey : pid' = p.id ∧ ty' = ty
        · have h0 : s.alerts.countP (activeAlertP pid' ty') = 0 := by
            rw [hkey.1, hkey.2, List.countP_eq_zero]
            intro a ha
            exact (List.find?_eq_none.mp hfind) a ha
          rw [h0, List.countP_cons, List.countP_nil]
          split <;> omega
        · have h0 : List.countP (activeAlertP pid' ty') [newAlert s p ty]
              = 0 := by
            rw [List.countP_eq_zero]
            intro a ha
            simp only [List.mem_singleton] at ha
            subst ha
            simp only [activeAlertP, newAlert, decide_eq_true_eq]
            rintro ⟨h1, h2, -⟩
            exact hkey ⟨h1.symm, h2.symm⟩
          rw [h0]
          simpa using hu pid' ty'
      · rw [checkProductStock_of_existing hact hcl hfind]
        exact hu

theorem acknowledgeAlert_uniqueActive {s : Sys} {aid now : Nat}
    (hu : uniqueActiveL s.alerts) :
    uniqueActiveL (acknowledgeAlert s aid now).1.alerts := by
  simp only [acknowledgeAlert]
  split
  · split
    · intro pid ty
      refine le_trans (countP_updateFirst_le ?_ _) (hu pid ty)
      intro a h
      simp [activeAlertP] at h
    · exact hu
  · exact hu

theorem resolveAlert_uniqueActive {s : Sys} {aid now : Nat}
    (hu : uniqueActiveL s.alerts) :
    uniqueActiveL (resolveAlert s aid now).1.alerts := by
  simp only [resolveAlert]
  split
  · split
    · intro pid ty
      refine le_trans (countP_updateFirst_le ?_ _) (hu pid ty)
      intro a h
      simp [activeAlertP] at h
    · exact hu
  · exact hu

/-! ### Alert frame lemmas for the remaining operations -/

theorem confirmOrder_alerts (s : Sys) (oid : Nat) :
    (confirmOrder s oid).1.alerts = s.alerts := by
  simp only [confirmOrder]
  repeat' split
  all_goals rfl

theorem markShipped_alerts (s : Sys) (oid : Nat) :
    (markShipped s oid).1.alerts = s.alerts := by
  simp only [markShipped]
  repeat' split
  all_goals rfl

theorem cancelOrder_alerts (s : Sys) (oid : Nat) :
    (cancelOrder s oid).1.alerts = s.alerts := by
  simp only [cancelOrder]
  repeat' split
  all_goals rfl

theorem receiveOrder_alerts (s : Sys) (oid : Nat)
    (received : Option (List (Nat × Int))) (now : Nat) :
    (receiveOrder s oid received now).1.alerts = s.alerts := by
  simp only [receiveOrder]
  repeat' split
  all_goals rfl

theorem createRestockOrder_alerts {s : Sys} {sid : Nat}
    {items : List (Nat × Int)} {now : Nat}
    {r : Sys × RestockOrder}
    (h : createRestockOrder s sid items now = .ok r) :
    r.1.alerts = s.alerts := by
  simp only [createRestockOrder] at h
  split at h
  · cases h
  · split at h
    · cases h
    · cases h
      rfl

theorem updateStockMid_alerts (s : Sys) (pid : Nat) (qc : Int)
    (tt : TransactionType) (p : Product) :
    (updateStockMid s pid qc tt p).alerts = s.alerts := rfl

theorem addProductMid_alerts (s : Sys) (i m : Int) (c pr : ℚ)
    (sup : Option Nat) :
    (addProductMid s i m c pr sup).1.alerts = s.alerts := by
  simp only [addProductMid]
  split
  all_goals rfl

theorem runUpdateStock_uniqueActive {s : Sys} {pid : Nat} {qc : Int}
    {tt : TransactionType} {now : Nat} (hu : uniqueActive s) :
    uniqueActive (runUpdateStock s pid qc tt now) := by
  rcases hfind : s.products.find? (fun q => q.id == pid) with _ | p
  · rwa [runUpdateStock_of_find?_none hfind]
  · by_cases hneg : p.current_stock + qc < 0
    · rwa [runUpdateStock_of_insufficient hfind hneg]
    · rw [runUpdateStock_of_ok hfind hneg]
      exact checkProductStock_uniqueActive hu

/-- Every operation of the system preserves alert uniqueness. -/
theorem step_uniqueActive {s : Sys} (op : SysOp) (hu : uniqueActive s) :
    uniqueActive (step s op) := by
  cases op with
  | update pid qc tt now => exact runUpdateStock_uniqueActive hu
  | sell pid q now => exact runUpdateStock_uniqueActive hu
  | restock pid q now => exact runUpdateStock_uniqueActive hu
  | ret pid q now => exact runUpdateStock_uniqueActive hu
  | adjust pid target now =>
    simp only [step]
    rcases hfind : s.products.find? (fun p => p.id == pid) with _ | p
    · rw [hfind]
      exact hu
    · rw [hfind]
      exact runUpdateStock_uniqueActive hu
  | expire pid q now => exact runUpdateStock_uniqueActive hu
  | damage pid q now => exact runUpdateStock_uniqueActive hu
  | addProd i m c pr sup now =>
    refine checkProductStock_uniqueActive ?_
    rw [addProductMid_alerts]
    exact hu
  | check p now => exact checkProductStock_uniqueActive hu
  | ack aid now => exact acknowledgeAlert_uniqueActive hu
  | resolve aid now => exact resolveAlert_uniqueActive hu
  | createOrder sid items now =>
    simp only [step]
    rcases h : createRestockOrder s sid items now with e | ⟨s', o⟩
    · exact hu
    · have h2 : s'.alerts = s.alerts := createRestockOrder_alerts h
      show uniqueActiveL s'.alerts
      rw [h2]
      exact hu
  | confirm oid =>
    unfold uniqueActive at hu ⊢
    rwa [step, confirmOrder_alerts]
  | ship oid =>
    unfold uniqueActive at hu ⊢
    rwa [step, markShipped_alerts]
  | cancel oid =>
    unfold uniqueActive at hu ⊢
    rwa [step, cancelOrder_alerts]
  | receive oid received now =>
    unfold uniqueActive at hu ⊢
    rwa [step, receiveOrder_alerts]
  | updCost pid c => exact hu

theorem foldl_step_uniqueActive (ops : List SysOp) {s₀ : Sys}
    (hu : uniqueActive s₀) : uniqueActive (ops.foldl step s₀) := by
  induction ops generalizing s₀ with
  | nil => exact hu
  | cons op rest ih => exact ih (step_uniqueActive op hu)

/-- C5. From any state with at most one Active alert per (product, kind)
pair, every sequence of operations — alert evaluation, acknowledge,
resolve, stock mutation, product creation, and the whole order workflow —
keeps at most one Active alert per (product, kind) pair, at every
intermediate state. -/
theorem alert_uniqueness (ops : List SysOp) (s₀ : Sys)
    (hu : uniqueActive s₀) :
    ∀ n, uniqueActive ((ops.take n).foldl step s₀) :=
  fun _ => foldl_step_uniqueActive _ hu

/-- The product snapshot a bulk re-evaluation would pass for the witness
product after it sold out. -/
def prodW0 : Product :=
  { id := 1, current_stock := 0, min_stock_level := 10,
    cost := 2, price := 5, is_active := true, supplier_id := some 1 }

/-- Witness for C5: a run that drops the stock (creating an alert), checks
again, acknowledges, restocks above the minimum (resolving), and drops
again; at most one Active alert per (product, kind) at the end. -/
theorem alert_uniqueness_witness :
    uniqueActive (([SysOp.sell 1 3 0, SysOp.check prodW0 1,
        SysOp.ack 1 2, SysOp.restock 1 20 3,
        SysOp.sell 1 15 4].take 5).foldl step sysW) :=
  alert_uniqueness _ sysW (by intro pid ty; simp [sysW]) 5

/-- C4. The stock evaluation classifies at most one condition, by
descending severity: out-of-stock exactly when `stock ≤ 0`, else
critical-low exactly when `stock ≤ min/2`, else low-stock exactly when
`stock ≤ min`, else none. Consequently, evaluating any active product with
`current_stock = 3` and `min_stock_level = 10` in a state with at most one
Active alert per (product, kind) leaves exactly one Active `CRITICAL_LOW`
alert for the product, creates no `LOW_STOCK` alert, and any alert the call
returns is Active of kind `CRITICAL_LOW`. -/
theorem classification_by_severity (stock minl : Int) :
    (classifyAlert stock minl = some .outOfStock ↔ stock ≤ 0) ∧
    (classifyAlert stock minl = some .criticalLow ↔
      0 < stock ∧ 2 * stock ≤ minl) ∧
    (classifyAlert stock minl = some .lowStock ↔
      0 < stock ∧ minl < 2 * stock ∧ stock ≤ minl) ∧
    (classifyAlert stock minl = none ↔
      0 < stock ∧ minl < 2 * stock ∧ minl < stock) ∧
    (∀ (s : Sys) (p : Product) (now : Nat), p.is_active = true →
      p.current_stock = 3 → p.min_stock_level = 10 →
      uniqueActive s →
      (checkProductStock s p now).1.alerts.countP
          (activeAlertP p.id .criticalLow) = 1 ∧
      (checkProductStock s p now).1.alerts.countP
          (activeAlertP p.id .lowStock) =
        s.alerts.countP (activeAlertP p.id .lowStock) ∧
      ∀ a, (checkProductStock s p now).2 = some a →
        a.alert_type = .criticalLow ∧ a.status = .active) := by
  refine ⟨?_, ?_, ?_, ?_, ?_⟩
  · unfold classifyAlert
    split_ifs <;> simp <;> omega
  · unfold classifyAlert
    split_ifs <;> simp <;> omega
  · unfold classifyAlert
    split_ifs <;> simp <;> omega
  · unfold classifyAlert
    split_ifs <;> simp <;> omega
  · intro s p now hact hstock hmin hu
    have hcl : classifyAlert p.current_stock p.min_stock_level =
        some .criticalLow := by
      rw [hstock, hmin]
      decide
    rcases hfind : s.alerts.find? (activeAlertP p.id .criticalLow)
        with _ | a
    · have hnew := @checkProductStock_of_new s p now _ hact hcl hfind
      refine ⟨?_, ?_, ?_⟩
      · rw [hnew.1, List.countP_append]
        have h0 : s.alerts.countP (activeAlertP p.id .criticalLow) = 0 := by
          rw [List.countP_eq_zero]
          exact List.find?_eq_none.mp hfind
        rw [h0]
        simp [newAlert, activeAlertP]
      · rw [hnew.1, List.countP_append]
        have h0 : List.countP (activeAlertP p.id .lowStock)
            [newAlert s p .criticalLow] = 0 := by
          simp [newAlert, activeAlertP]
        rw [h0, Nat.add_zero]
      · intro a ha
        rw [hnew.2] at ha
        cases ha
        exact ⟨rfl, rfl⟩
    · rw [checkProductStock_of_existing hact hcl hfind]
      refine ⟨?_, rfl, ?_⟩
      · have h1 : 0 < s.alerts.countP (activeAlertP p.id .criticalLow) := by
          rw [List.countP_pos_iff]
          exact ⟨a, List.mem_of_find?_eq_some hfind, List.find?_some hfind⟩
        have h2 := hu p.id .criticalLow
        show s.alerts.countP (activeAlertP p.id .criticalLow) = 1
        omega
      · intro a ha
        cases ha

/-- Witness for C4, the spec scenario: checking the test product
(`current_stock = 3`, `min_stock_level = 10`) on the witness state yields
exactly one Active CRITICAL_LOW alert and no LOW_STOCK alert. -/
theorem classification_by_severity_witness :
    (checkProductStock sysW
        { id := 1, current_stock := 3, min_stock_level := 10, cost := 2,
          price := 5, is_active := true, supplier_id := some 1 }
        0).1.alerts.countP (activeAlertP 1 .criticalLow) = 1 ∧
    (checkProductStock sysW
        { id := 1, current_stock := 3, min_stock_level := 10, cost := 2,
          price := 5, is_active := true, supplier_id := some 1 }
        0).1.alerts.countP (activeAlertP 1 .lowStock) =
      sysW.alerts.countP (activeAlertP 1 .lowStock) := by
  have h := (classification_by_severity 3 10).2.2.2.2 sysW
    { id := 1, current_stock := 3, min_stock_level := 10, cost := 2,
      price := 5, is_active := true, supplier_id := some 1 }
    0 rfl rfl rfl (by intro pid ty; simp [sysW])
  exact ⟨h.1, h.2.1⟩

/-- C6. When evaluation classifies no condition for an active product
(`current_stock > min_stock_level`, with a non-negative threshold), the
call returns no alert and every alert of that product that was Active or
Acknowledged — across all alert kinds — is transitioned to Resolved with
`resolved_at` stamped to the evaluation time. -/
theorem recovery_resolves_alerts (s : Sys) (p : Product) (now : Nat)
    (hact : p.is_active = true) (hmin : 0 ≤ p.min_stock_level)
    (hstock : p.min_stock_level < p.current_stock) :
    (checkProductStock s p now).2 = none ∧
    ∀ a ∈ s.alerts, a.product_id = p.id →
      (a.status = .active ∨ a.status = .acknowledged) →
      ({ a with status := .resolved, resolved_at := some now } : StockAlert)
        ∈ (checkProductStock s p now).1.alerts := by
  have h1 : ¬ p.current_stock ≤ 0 := by omega
  have h2 : ¬ 2 * p.current_stock ≤ p.min_stock_level := by omega
  have h3 : ¬ p.current_stock ≤ p.min_stock_level := by omega
  have hcl : classifyAlert p.current_stock p.min_stock_level = none := by
    unfold classifyAlert
    rw [if_neg h1, if_neg h2, if_neg h3]
  rw [checkProductStock_of_healthy hact hcl]
  refine ⟨rfl, ?_⟩
  intro a ha hpid hst
  show _ ∈ resolveAlertsForProduct s.alerts p.id now
  unfold resolveAlertsForProduct
  have hg : (if a.product_id = p.id ∧
        (a.status = .active ∨ a.status = .acknowledged) then
      ({ a with status := .resolved, resolved_at := some now } : StockAlert)
    else a) =
      { a with status := .resolved, resolved_at := some now } :=
    if_pos ⟨hpid, hst⟩
  rw [← hg]
  exact List.mem_map_of_mem _ ha

/-- An Active low-stock alert for the witness product, recorded when its
stock was 8. -/
def alertW6 : StockAlert :=
  { id := 1, product_id := 1, alert_type := .lowStock,
    status := .active, stock_level_at_alert := 8,
    acknowledged_at := none, resolved_at := none }

/-- A state holding an Active low-stock alert for the witness product. -/
def sysW6 : Sys :=
  { sysW with alerts := [alertW6] }

/-- The witness product after its stock was adjusted to 20, above the
minimum of 10. -/
def prodW6 : Product :=
  { id := 1, current_stock := 20, min_stock_level := 10,
    cost := 2, price := 5, is_active := true, supplier_id := some 1 }

/-- Witness for C6: the Active low-stock alert of a product whose stock was
adjusted above the minimum is Resolved with `resolved_at` set. -/
theorem recovery_resolves_alerts_witness :
    ({ alertW6 with status := .resolved, resolved_at := some 5 } : StockAlert)
      ∈ (checkProductStock sysW6 prodW6 5).1.alerts := by
  have h := recovery_resolves_alerts sysW6 prodW6 5 rfl (by decide)
    (by decide)
  exact h.2 alertW6 (by decide) rfl (Or.inl rfl)

/-! ## Claim C7: the notification cooldown -/

/-- The state after the create branch of `check_product_stock`, before the
notification-dispatch decision. -/
def sAfterNew (s : Sys) (p : Product) (ty : AlertType) : Sys :=
  { s with alerts := s.alerts ++ [newAlert s p ty],
           next_alert_id := s.next_alert_id + 1 }

theorem checkProductStock_of_new_full {s : Sys} {p : Product} {now : Nat}
    {ty : AlertType} (hact : p.is_active = true)
    (hcl : classifyAlert p.current_stock p.min_stock_level = some ty)
    (hfind : s.alerts.find? (activeAlertP p.id ty) = none) :
    checkProductStock s p now =
      (if canSendAlert s p.id ty now then
        { sAfterNew s p ty with
            notifications := s.notifications ++ [(p.id, ty, now)],
            cooldown := setCooldown s.cooldown (p.id, ty) now }
      else sAfterNew s p ty, some (newAlert s p ty)) := by
  simp only [checkProductStock, hact, hcl, hfind, if_true, ite_true,
    sAfterNew, newAlert]

theorem lookupCooldown_setCooldown (l : List ((Nat × AlertType) × Nat))
    (k : Nat × AlertType) (v : Nat) :
    lookupCooldown (setCooldown l k v) k = some v := by
  unfold lookupCooldown setCooldown
  rw [List.find?_append]
  have h : (l.filter (fun e => !decide (e.1 = k))).find?
      (fun e => decide (e.1 = k)) = none := by
    rw [List.find?_eq_none]
    intro x hx
    have hf := (List.mem_filter.mp hx).2
    simp only [Bool.not_eq_true', decide_eq_false_iff_not] at hf
    simpa using hf
  rw [h]
  simp

theorem sAfterNew_alerts_eq {s : Sys} {p : Product} {ty : AlertType}
    {now : Nat} (hact : p.is_active = true)
    (hcl : classifyAlert p.current_stock p.min_stock_level = some ty)
    (hfind : s.alerts.find? (activeAlertP p.id ty) = none) :
    (checkProductStock s p now).1.alerts =
      s.alerts ++ [newAlert s p ty] := by
  rw [checkProductStock_of_new_full hact hcl hfind]
  split <;> rfl

/-- C7 (amended). Two qualifying stock drops classified with the same kind
for the same product, the second within the cooldown window of the first,
dispatch at most one observer notification; the alert record is created on
the first drop regardless of the cooldown, snapshotting the stock at its
creation (the first drop, not the latest); and when the first dispatch was
allowed the cooldown timestamp for the (product, kind) key is refreshed to
the dispatch time. -/
theorem cooldown_gates_notification_only (s₀ : Sys) (p₁ p₂ : Product)
    (t₁ t₂ : Nat) (ty : AlertType)
    (hact₁ : p₁.is_active = true) (hact₂ : p₂.is_active = true)
    (hid : p₂.id = p₁.id)
    (hcl₁ : classifyAlert p₁.current_stock p₁.min_stock_level = some ty)
    (hcl₂ : classifyAlert p₂.current_stock p₂.min_stock_level = some ty)
    (hfind : s₀.alerts.find? (activeAlertP p₁.id ty) = none)
    (_hwin : t₂ - t₁ < s₀.cooldown_minutes) :
    (checkProductStock (checkProductStock s₀ p₁ t₁).1 p₂ t₂).1.notifications.length
        ≤ s₀.notifications.length + 1 ∧
    newAlert s₀ p₁ ty ∈
      (checkProductStock (checkProductStock s₀ p₁ t₁).1 p₂ t₂).1.alerts ∧
    (newAlert s₀ p₁ ty).stock_level_at_alert = p₁.current_stock ∧
    (canSendAlert s₀ p₁.id ty t₁ = true →
      lookupCooldown
        (checkProductStock (checkProductStock s₀ p₁ t₁).1 p₂ t₂).1.cooldown
        (p₁.id, ty) = some t₁) := by
  have halerts : (checkProductStock s₀ p₁ t₁).1.alerts =
      s₀.alerts ++ [newAlert s₀ p₁ ty] :=
    sAfterNew_alerts_eq hact₁ hcl₁ hfind
  have hfind₂ : (checkProductStock s₀ p₁ t₁).1.alerts.find?
      (activeAlertP p₂.id ty) = some (newAlert s₀ p₁ ty) := by
    rw [halerts, hid, List.find?_append, hfind]
    simp [newAlert, activeAlertP]
  have hsame : checkProductStock (checkProductStock s₀ p₁ t₁).1 p₂ t₂ =
      ((checkProductStock s₀ p₁ t₁).1, none) :=
    checkProductStock_of_existing hact₂ hcl₂ hfind₂
  rw [hsame]
  rw [checkProductStock_of_new_full hact₁ hcl₁ hfind]
  by_cases hcan : canSendAlert s₀ p₁.id ty t₁ = true
  · rw [if_pos hcan]
    refine ⟨?_, ?_, rfl, ?_⟩
    · simp
    · simp [sAfterNew]
    · intro _
      exact lookupCooldown_setCooldown _ _ _
  · rw [if_neg hcan]
    refine ⟨?_, ?_, rfl, ?_⟩
    · simp [sAfterNew]
    · simp [sAfterNew]
    · intro h
      exact absurd h hcan

/-- The first-drop snapshot of the witness product (stock 4,
minimum 10: critical-low). -/
def prodW7a : Product :=
  { id := 1, current_stock := 4, min_stock_level := 10,
    cost := 2, price := 5, is_active := true, supplier_id := some 1 }

/-- The second-drop snapshot ten minutes later (stock 2: still
critical-low). -/
def prodW7b : Product :=
  { id := 1, current_stock := 2, min_stock_level := 10,
    cost := 2, price := 5, is_active := true, supplier_id := some 1 }

/-- Witness for C7 (amended): dropping to stock 4 at t = 0 and to stock 2
at t = 10 on the fresh witness state dispatches at most one notification,
persists an Active critical-low alert snapshotting stock 4, and stamps the
cooldown key with the dispatch time 0. -/
theorem cooldown_gates_notification_only_witness :
    (checkProductStock (checkProductStock sysW prodW7a 0).1 prodW7b
        10).1.notifications.length ≤ sysW.notifications.length + 1 ∧
    newAlert sysW prodW7a .criticalLow ∈
      (checkProductStock (checkProductStock sysW prodW7a 0).1 prodW7b
        10).1.alerts ∧
    (newAlert sysW prodW7a .criticalLow).stock_level_at_alert =
      prodW7a.current_stock ∧
    (canSendAlert sysW prodW7a.id .criticalLow 0 = true →
      lookupCooldown
        (checkProductStock (checkProductStock sysW prodW7a 0).1 prodW7b
          10).1.cooldown (prodW7a.id, .criticalLow) = some 0) :=
  cooldown_gates_notification_only sysW prodW7a prodW7b 0 10 .criticalLow
    rfl rfl rfl (by decide) (by decide) (by decide) (by decide)

/-- Counterexample to C7 as stated: after two qualifying drops of the same
kind within the 30-minute window (stock 4 at t=0, stock 2 at t=10), the
persisted alert still carries `stock_level_at_alert = 4`, the stock of the
first drop — it does **not** reflect the latest stock level 2. -/
theorem cooldown_latest_stock_counterexample :
    classifyAlert prodW7a.current_stock prodW7a.min_stock_level =
      some .criticalLow ∧
    classifyAlert prodW7b.current_stock prodW7b.min_stock_level =
      some .criticalLow ∧
    10 - 0 < sysW.cooldown_minutes ∧
    (checkProductStock (checkProductStock sysW prodW7a 0).1 prodW7b
        10).1.alerts.length = 1 ∧
    (checkProductStock (checkProductStock sysW prodW7a 0).1 prodW7b
        10).1.notifications.length = 1 ∧
    ¬ (∀ a ∈ (checkProductStock (checkProductStock sysW prodW7a 0).1 prodW7b
        10).1.alerts, a.stock_level_at_alert = prodW7b.current_stock) := by
  decide

/-! ## Claim C3: transaction consistency -/

/-- The most recent ledger row for a product. -/
def lastTxnForL (l : List StockTransaction) (pid : Nat) :
    Option StockTransaction :=
  l.reverse.find? (fun t => t.product_id == pid)

def lastTxnFor (s : Sys) (pid : Nat) : Option StockTransaction :=
  lastTxnForL s.transactions pid

theorem lastTxnForL_append (l l' : List StockTransaction) (pid : Nat) :
    lastTxnForL (l ++ l') pid = (lastTxnForL l' pid).or (lastTxnForL l pid) := by
  simp [lastTxnForL, List.find?_append]

theorem lastTxnForL_single_self {t : StockTransaction} {pid : Nat}
    (h : t.product_id = pid) : lastTxnForL [t] pid = some t := by
  simp [lastTxnForL, h]

theorem lastTxnForL_single_ne {t : StockTransaction} {pid : Nat}
    (h : t.product_id ≠ pid) : lastTxnForL [t] pid = none := by
  simp [lastTxnForL, h]

/-- The transaction-consistency invariant of C3: every ledger row satisfies
`previous_stock + quantity = new_stock`, and every product's most recent
row records the product's current stock (this is what "`new_stock` equals
`current_stock` at the moment of commit" means at the level of reachable
states: every row is the most recent one at its own commit, and stays
consistent until the next commit for that product overwrites it). -/
def TxnInv (s : Sys) : Prop :=
  (∀ t ∈ s.transactions, t.previous_stock + t.quantity = t.new_stock) ∧
  (∀ pid t, lastTxnFor s pid = some t → t.new_stock = stockOf s pid)

/-- Referential well-formedness maintained by the schema: order items refer
to existing products, and primary keys are below the autoincrement
counters. -/
def WfSys (s : Sys) : Prop :=
  (∀ o ∈ s.orders, ∀ it ∈ o.items, ∃ p ∈ s.products, p.id = it.product_id) ∧
  (∀ p ∈ s.products, p.id < s.next_product_id) ∧
  (∀ t ∈ s.transactions, t.product_id < s.next_product_id)

theorem exists_id_of_map_id_eq {l l' : List Product} {x : Nat}
    (h : l'.map (fun p => p.id) = l.map (fun p => p.id))
    (hx : ∃ p ∈ l, p.id = x) : ∃ p ∈ l', p.id = x := by
  obtain ⟨p, hp, hpx⟩ := hx
  have hmem : x ∈ l'.map (fun p => p.id) := by
    rw [h, ← hpx]
    exact List.mem_map_of_mem _ hp
  obtain ⟨q, hq, hqx⟩ := List.mem_map.mp hmem
  exact ⟨q, hq, hqx⟩

theorem stockOfP_append_ne {ps : List Product} {p : Product} {pid : Nat}
    (h : (p.id == pid) = false) :
    stockOfP (ps ++ [p]) pid = stockOfP ps pid := by
  unfold stockOfP
  rw [List.find?_append]
  rcases hf : ps.find? (fun q => q.id == pid) with _ | q
  · simp [hf, List.find?, h]
  · simp [hf]

theorem stockOfP_append_fresh {ps : List Product} {p : Product} {pid : Nat}
    (hall : ∀ q ∈ ps, (q.id == pid) = false) (hp : (p.id == pid) = true) :
    stockOfP (ps ++ [p]) pid = p.current_stock := by
  unfold stockOfP
  rw [List.find?_append]
  have h0 : ps.find? (fun q => q.id == pid) = none := by
    rw [List.find?_eq_none]
    intro x hx
    simp [hall x hx]
  rw [h0]
  simp [List.find?, hp]

theorem find?_of_exists_id {ps : List Product} {x : Nat}
    (hex : ∃ p ∈ ps, p.id = x) :
    ∃ q, ps.find? (fun p => p.id == x) = some q := by
  have h1 : (ps.find? (fun p => p.id == x)).isSome := by
    rw [List.find?_isSome]
    obtain ⟨p, hp, hpe⟩ := hex
    exact ⟨p, hp, by simp [hpe]⟩
  exact Option.isSome_iff_exists.mp h1

theorem stockOfP_updateFirst_add {ps : List Product} {x : Nat} {qr : Int}
    (hex : ∃ p ∈ ps, p.id = x) :
    stockOfP (updateFirst (fun p => p.id == x)
      (fun p => { p with current_stock := p.current_stock + qr }) ps) x =
      stockOfP ps x + qr := by
  obtain ⟨q, hq⟩ := find?_of_exists_id hex
  rw [stockOfP_updateFirst_found
    (f := fun p => { p with current_stock := p.current_stock + qr }) hq
    (fun _ => rfl), stockOfP_find?_eq hq]

/-! ## Receiving: the per-item loop -/

/-- The total quantity received for one product across an order's items. -/
def sumRecv (items : List RestockOrderItem)
    (received : Option (List (Nat × Int))) (pid : Nat) : Int :=
  ((items.filter (fun it => it.product_id == pid)).map
    (fun it => recvQty received it)).sum

theorem sumRecv_cons (it : RestockOrderItem) (rest : List RestockOrderItem)
    (received : Option (List (Nat × Int))) (pid : Nat) :
    sumRecv (it :: rest) received pid =
      (if (it.product_id == pid) = true then recvQty received it else 0) +
        sumRecv rest received pid := by
  simp only [sumRecv, List.filter_cons]
  split <;> simp_all

theorem receiveItems_products_ids (received : Option (List (Nat × Int))) :
    ∀ (items : List RestockOrderItem) (ps : List Product),
    ((receiveItems received items ps).1).map (fun p => p.id) =
      ps.map (fun p => p.id) := by
  intro items
  induction items with
  | nil => intro ps; rfl
  | cons it rest ih =>
    intro ps
    simp only [receiveItems]
    rw [ih]
    exact map_updateFirst
      (f := fun p => { p with current_stock :=
        p.current_stock + recvQty received it })
      (g := fun p => p.id) (fun a => rfl) ps

theorem receiveItems_txn_shape (received : Option (List (Nat × Int))) :
    ∀ (items : List RestockOrderItem) (ps : List Product),
    (receiveItems received items ps).2.1.map
        (fun t => (t.product_id, t.transaction_type, t.quantity)) =
      items.map (fun it =>
        (it.product_id, TransactionType.restock, recvQty received it)) := by
  intro items
  induction items with
  | nil => intro ps; rfl
  | cons it rest ih =>
    intro ps
    simp only [receiveItems, List.map_cons]
    rw [ih]

theorem receiveItems_items_shape (received : Option (List (Nat × Int))) :
    ∀ (items : List RestockOrderItem) (ps : List Product),
    (receiveItems received items ps).2.2.map
        (fun it => (it.product_id, it.quantity_received)) =
      items.map (fun it => (it.product_id, recvQty received it)) := by
  intro items
  induction items with
  | nil => intro ps; rfl
  | cons it rest ih =>
    intro ps
    simp only [receiveItems, List.map_cons]
    rw [ih]

theorem receiveItems_txns_ok (received : Option (List (Nat × Int))) :
    ∀ (items : List RestockOrderItem) (ps : List Product),
    ∀ t ∈ (receiveItems received items ps).2.1,
      t.previous_stock + t.quantity = t.new_stock := by
  intro items
  induction items with
  | nil =>
    intro ps t ht
    simp [receiveItems] at ht
  | cons it rest ih =>
    intro ps t ht
    simp only [receiveItems] at ht
    rcases List.mem_cons.mp ht with h1 | h1
    · rw [h1]
    · exact ih _ t h1

theorem receiveItems_stock (received : Option (List (Nat × Int))) :
    ∀ (items : List RestockOrderItem) (ps : List Product),
    (∀ it ∈ items, ∃ p ∈ ps, p.id = it.product_id) →
    ∀ pid, stockOfP (receiveItems received items ps).1 pid =
      stockOfP ps pid + sumRecv items received pid := by
  intro items
  induction items with
  | nil =>
    intro ps _ pid
    simp [receiveItems, sumRecv]
  | cons it rest ih =>
    intro ps hex pid
    have hex_head := hex it (List.mem_cons_self _ _)
    have hids := map_updateFirst (p := fun p => p.id == it.product_id)
      (f := fun p => { p with current_stock :=
        p.current_stock + recvQty received it })
      (g := fun p => p.id) (fun a => rfl) ps
    have hex' : ∀ it' ∈ rest,
        ∃ p ∈ updateFirst (fun p => p.id == it.product_id)
          (fun p => { p with current_stock :=
            p.current_stock + recvQty received it }) ps,
          p.id = it'.product_id :=
      fun it' h => exists_id_of_map_id_eq hids
        (hex it' (List.mem_cons_of_mem _ h))
    simp only [receiveItems]
    rw [ih _ hex' pid, sumRecv_cons]
    by_cases hpp : (it.product_id == pid) = true
    · have hpid : it.product_id = pid := by simpa using hpp
      rw [if_pos hpp]
      rw [← hpid, stockOfP_updateFirst_add hex_head]
      omega
    · have hpid : it.product_id ≠ pid := by simpa using hpp
      rw [if_neg hpp,
        stockOfP_updateFirst_ne
          (f := fun p => { p with current_stock :=
            p.current_stock + recvQty received it })
          (fun _ => rfl) hpid ps]
      omega

theorem receiveItems_last (received : Option (List (Nat × Int))) :
    ∀ (items : List RestockOrderItem) (ps : List Product)
      (pre : List StockTransaction),
    (∀ it ∈ items, ∃ p ∈ ps, p.id = it.product_id) →
    (∀ pid t, lastTxnForL pre pid = some t →
      t.new_stock = stockOfP ps pid) →
    ∀ pid t,
      lastTxnForL (pre ++ (receiveItems received items ps).2.1) pid =
        some t →
      t.new_stock = stockOfP (receiveItems received items ps).1 pid := by
  intro items
  induction items with
  | nil =>
    intro ps pre _ hlast pid t h
    simp only [receiveItems, List.append_nil] at h
    exact hlast pid t h
  | cons it rest ih =>
    intro ps pre hex hlast pid t h
    have hex_head := hex it (List.mem_cons_self _ _)
    have hids := map_updateFirst (p := fun p => p.id == it.product_id)
      (f := fun p => { p with current_stock :=
        p.current_stock + recvQty received it })
      (g := fun p => p.id) (fun a => rfl) ps
    have hex' : ∀ it' ∈ rest,
        ∃ p ∈ updateFirst (fun p => p.id == it.product_id)
          (fun p => { p with current_stock :=
            p.current_stock + recvQty received it }) ps,
          p.id = it'.product_id :=
      fun it' h' => exists_id_of_map_id_eq hids
        (hex it' (List.mem_cons_of_mem _ h'))
    simp only [receiveItems] at h ⊢
    rw [List.append_cons] at h
    refine ih _ _ hex' ?_ pid t h
    intro pid' t' h'
    rw [lastTxnForL_append] at h'
    by_cases hpp : it.product_id = pid'
    · rw [lastTxnForL_single_self hpp, Option.or_some] at h'
      cases h'
      show stockOfP ps it.product_id + recvQty received it = _
      rw [← hpp, stockOfP_updateFirst_add hex_head]
    · rw [lastTxnForL_single_ne hpp, Option.none_or] at h'
      rw [stockOfP_updateFirst_ne
        (f := fun p => { p with current_stock :=
          p.current_stock + recvQty received it })
        (fun _ => rfl) hpp ps]
      exact hlast pid' t' h'

theorem receiveItems_items_pids (received : Option (List (Nat × Int))) :
    ∀ (items : List RestockOrderItem) (ps : List Product),
    (receiveItems received items ps).2.2.map (fun it => it.product_id) =
      items.map (fun it => it.product_id) := by
  intro items
  induction items with
  | nil => intro ps; rfl
  | cons it rest ih =>
    intro ps
    simp only [receiveItems, List.map_cons]
    rw [ih]

theorem receiveItems_txn_pids (received : Option (List (Nat × Int))) :
    ∀ (items : List RestockOrderItem) (ps : List Product),
    (receiveItems received items ps).2.1.map (fun t => t.product_id) =
      items.map (fun it => it.product_id) := by
  intro items
  induction items with
  | nil => intro ps; rfl
  | cons it rest ih =>
    intro ps
    simp only [receiveItems, List.map_cons]
    rw [ih]

/-- `TxnInv` only reads the product and transaction tables. -/
theorem txnInv_frame {s s' : Sys} (hp : s'.products = s.products)
    (ht : s'.transactions = s.transactions) (h : TxnInv s) : TxnInv s' := by
  constructor
  · rw [ht]
    exact h.1
  · intro pid t hl
    rw [lastTxnFor, lastTxnForL, ht] at hl
    rw [stockOf, hp]
    exact h.2 pid t hl

theorem stockOfP_updateFirst_cost (ps : List Product) (pid : Nat) (c : ℚ)
    (x : Nat) :
    stockOfP (updateFirst (fun p => p.id == pid)
      (fun p => { p with cost := c }) ps) x = stockOfP ps x := by
  by_cases hx : pid = x
  · subst hx
    rcases hf : ps.find? (fun p => p.id == pid) with _ | q
    · rw [updateFirst_of_find?_none hf]
    · rw [stockOfP_updateFirst_found (f := fun p => { p with cost := c }) hf
        (fun _ => rfl), stockOfP_find?_eq hf]
  · exact stockOfP_updateFirst_ne (f := fun p => { p with cost := c })
      (fun _ => rfl) hx ps

/-- Every line item built by `create_restock_order` refers to an existing
product of the supplier and snapshots its cost. -/
theorem buildOrderItems_exists {ps : List Product} {sid : Nat} :
    ∀ {its : List (Nat × Int)} {l : List RestockOrderItem},
    buildOrderItems ps sid its = .ok l →
    ∀ it ∈ l, ∃ p ∈ ps, p.id = it.product_id ∧ it.unit_cost = p.cost ∧
      it.total_price = (it.quantity_ordered : ℚ) * p.cost := by
  intro its
  induction its with
  | nil =>
    intro l h it hit
    simp only [buildOrderItems] at h
    cases h
    simp at hit
  | cons pr rest ih =>
    intro l h it hit
    obtain ⟨pid, qty⟩ := pr
    simp only [buildOrderItems] at h
    rcases hf : ps.find? (fun p => p.id == pid) with _ | p
    · simp only [hf] at h
      cases h
    · simp only [hf] at h
      by_cases hsup : p.supplier_id = some sid
      · rw [if_pos hsup] at h
        rcases hb : buildOrderItems ps sid rest with e | tail
        · simp only [hb] at h
          cases h
        · simp only [hb] at h
          cases h
          rcases List.mem_cons.mp hit with h1 | h1
          · subst h1
            refine ⟨p, List.mem_of_find?_eq_some hf, ?_, rfl, rfl⟩
            simpa using List.find?_some hf
          · exact ih hb it h1
      · rw [if_neg hsup] at h
        cases h

/-- The successful result of `create_restock_order`, explicitly. -/
theorem createRestockOrder_ok_spec {s : Sys} {sid : Nat}
    {items : List (Nat × Int)} {now : Nat} {s' : Sys} {o : RestockOrder}
    (h : createRestockOrder s sid items now = .ok (s', o)) :
    s' = { s with orders := s.orders ++ [o],
                  next_order_id := s.next_order_id + 1 } ∧
    buildOrderItems s.products sid items = .ok o.items ∧
    o.status = .pending ∧
    o.total_amount = (o.items.map (fun it => it.total_price)).sum := by
  simp only [createRestockOrder] at h
  rcases hfs : s.suppliers.find? (fun sup => sup.id == sid) with _ | sup
  · simp only [hfs] at h
    cases h
  · simp only [hfs] at h
    rcases hb : buildOrderItems s.products sid items with e | its
    · simp only [hb] at h
      cases h
    · simp only [hb] at h
      have h2 := Except.ok.inj h
      rw [Prod.mk.injEq] at h2
      obtain ⟨h3, h4⟩ := h2
      subst h3
      subst h4
      exact ⟨rfl, rfl, rfl, rfl⟩

/-- The combined C3 invariant. -/
def LedgerInv (s : Sys) : Prop :=
  WfSys s ∧ TxnInv s

theorem wfSys_frame {s s' : Sys} (hp : s'.products = s.products)
    (ht : s'.transactions = s.transactions) (ho : s'.orders = s.orders)
    (hn : s'.next_product_id = s.next_product_id) (h : WfSys s) :
    WfSys s' := by
  refine ⟨?_, ?_, ?_⟩
  · rw [ho, hp]
    exact h.1
  · rw [hp, hn]
    exact h.2.1
  · rw [ht, hn]
    exact h.2.2

theorem ledgerInv_frame {s s' : Sys} (hp : s'.products = s.products)
    (ht : s'.transactions = s.transactions) (ho : s'.orders = s.orders)
    (hn : s'.next_product_id = s.next_product_id) (h : LedgerInv s) :
    LedgerInv s' :=
  ⟨wfSys_frame hp ht ho hn h.1, txnInv_frame hp ht h.2⟩

theorem checkProductStock_ledgerInv {s : Sys} {p : Product} {now : Nat}
    (h : LedgerInv s) : LedgerInv (checkProductStock s p now).1 :=
  ledgerInv_frame (checkProductStock_products s p now)
    (checkProductStock_transactions s p now)
    (checkProductStock_orders s p now)
    (checkProductStock_next_product_id s p now) h

theorem updateStockMid_ledgerInv {s : Sys} {pid : Nat} {qc : Int}
    {tt : TransactionType} {p : Product}
    (hfind : s.products.find? (fun q => q.id == pid) = some p)
    (h : LedgerInv s) : LedgerInv (updateStockMid s pid qc tt p) := by
  have hpidp : p.id = pid := by simpa using List.find?_some hfind
  have hpmem : p ∈ s.products := List.mem_of_find?_eq_some hfind
  have hids := map_updateFirst (p := fun q => q.id == pid)
    (f := fun q => { q with current_stock := p.current_stock + qc })
    (g := fun q => q.id) (fun a => rfl) s.products
  constructor
  · refine ⟨?_, ?_, ?_⟩
    · intro o ho it hit
      exact exists_id_of_map_id_eq hids (h.1.1 o ho it hit)
    · intro q hq
      rcases mem_updateFirst hq with h1 | ⟨b, hb, _, rfl⟩
      · exact h.1.2.1 q h1
      · exact h.1.2.1 b hb
    · intro t ht
      rcases List.mem_append.mp ht with h1 | h1
      · exact h.1.2.2 t h1
      · rcases List.mem_singleton.mp h1 with rfl
        show pid < s.next_product_id
        rw [← hpidp]
        exact h.1.2.1 p hpmem
  · constructor
    · intro t ht
      rcases List.mem_append.mp ht with h1 | h1
      · exact h.2.1 t h1
      · rcases List.mem_singleton.mp h1 with rfl
        rfl
    · intro pid' t hl
      rw [lastTxnFor, lastTxnForL] at hl
      show t.new_stock = stockOf (updateStockMid s pid qc tt p) pid'
      have hl' : lastTxnForL (s.transactions ++
          [{ product_id := pid, transaction_type := tt, quantity := qc,
             previous_stock := p.current_stock,
             new_stock := p.current_stock + qc,
             unit_price := p.price,
             total_value := (qc.natAbs : ℚ) * p.price }]) pid' =
          some t := hl
      rw [lastTxnForL_append] at hl'
      by_cases hpp : pid = pid'
      · subst hpp
        rw [lastTxnForL_single_self rfl, Option.or_some] at hl'
        cases hl'
        rw [stockOf_updateStockMid_self hfind]
      · rw [lastTxnForL_single_ne hpp, Option.none_or] at hl'
        rw [stockOf_updateStockMid_ne hpp]
        exact h.2.2 pid' t hl'

theorem runUpdateStock_ledgerInv {s : Sys} {pid : Nat} {qc : Int}
    {tt : TransactionType} {now : Nat} (h : LedgerInv s) :
    LedgerInv (runUpdateStock s pid qc tt now) := by
  rcases hfind : s.products.find? (fun q => q.id == pid) with _ | p
  · rwa [runUpdateStock_of_find?_none hfind]
  · by_cases hneg : p.current_stock + qc < 0
    · rwa [runUpdateStock_of_insufficient hfind hneg]
    · rw [runUpdateStock_of_ok hfind hneg]
      exact checkProductStock_ledgerInv (updateStockMid_ledgerInv hfind h)

theorem newProduct_id (s : Sys) (i m : Int) (c pr : ℚ) (sup : Option Nat) :
    (newProduct s i m c pr sup).id = s.next_product_id := rfl

theorem addProductMid_fst (s : Sys) (i m : Int) (c pr : ℚ)
    (sup : Option Nat) :
    (addProductMid s i m c pr sup).1 =
      if 0 < i then
        { s with products := s.products ++ [newProduct s i m c pr sup],
                 transactions := s.transactions ++ [initTxn s i pr],
                 next_product_id := s.next_product_id + 1 }
      else
        { s with products := s.products ++ [newProduct s i m c pr sup],
                 next_product_id := s.next_product_id + 1 } := by
  simp only [addProductMid]

theorem addProductMid_ledgerInv {s : Sys} {i m : Int} {c pr : ℚ}
    {sup : Option Nat} (h : LedgerInv s) :
    LedgerInv (addProductMid s i m c pr sup).1 := by
  have hfresh : ∀ q ∈ s.products, (q.id == s.next_product_id) = false := by
    intro q hq
    have := h.1.2.1 q hq
    simp only [beq_eq_false_iff_ne, ne_eq]
    omega
  have hwfo : ∀ o ∈ s.orders, ∀ it ∈ o.items,
      ∃ q ∈ s.products ++ [newProduct s i m c pr sup],
        q.id = it.product_id := by
    intro o ho it hit
    obtain ⟨q, hq, he⟩ := h.1.1 o ho it hit
    exact ⟨q, List.mem_append_left _ hq, he⟩
  have hwfp : ∀ q ∈ s.products ++ [newProduct s i m c pr sup],
      q.id < s.next_product_id + 1 := by
    intro q hq
    rcases List.mem_append.mp hq with h1 | h1
    · have := h.1.2.1 q h1
      omega
    · rcases List.mem_singleton.mp h1 with rfl
      rw [newProduct_id]
      omega
  have hstock_ne : ∀ pid, s.next_product_id ≠ pid →
      stockOfP (s.products ++ [newProduct s i m c pr sup]) pid =
        stockOfP s.products pid := by
    intro pid hpp
    refine stockOfP_append_ne ?_
    rw [newProduct_id]
    simpa using hpp
  rw [addProductMid_fst]
  by_cases hpos : 0 < i
  · rw [if_pos hpos]
    refine ⟨⟨hwfo, hwfp, ?_⟩, ?_, ?_⟩
    · intro t ht
      rcases List.mem_append.mp ht with h1 | h1
      · have := h.1.2.2 t h1
        show t.product_id < s.next_product_id + 1
        omega
      · rcases List.mem_singleton.mp h1 with rfl
        show s.next_product_id < s.next_product_id + 1
        omega
    · intro t ht
      rcases List.mem_append.mp ht with h1 | h1
      · exact h.2.1 t h1
      · rcases List.mem_singleton.mp h1 with rfl
        show (i - i) + i = i
        omega
    · intro pid t hl
      have hl2 : lastTxnForL (s.transactions ++ [initTxn s i pr]) pid =
          some t := hl
      rw [lastTxnForL_append] at hl2
      by_cases hpp : s.next_product_id = pid
      · rw [lastTxnForL_single_self hpp, Option.or_some] at hl2
        cases hl2
        show i = stockOfP (s.products ++ [newProduct s i m c pr sup]) pid
        rw [stockOfP_append_fresh (fun q hq => hpp ▸ hfresh q hq)
          (by simp [newProduct_id, hpp])]
        rfl
      · rw [lastTxnForL_single_ne hpp, Option.none_or] at hl2
        show t.new_stock =
          stockOfP (s.products ++ [newProduct s i m c pr sup]) pid
        rw [hstock_ne pid hpp]
        exact h.2.2 pid t hl2
  · rw [if_neg hpos]
    refine ⟨⟨hwfo, hwfp, ?_⟩, ?_, ?_⟩
    · intro t ht
      have := h.1.2.2 t ht
      show t.product_id < s.next_product_id + 1
      omega
    · exact h.2.1
    · intro pid t hl
      have hl2 : lastTxnForL s.transactions pid = some t := hl
      by_cases hpp : s.next_product_id = pid
      · exfalso
        have hmem : t ∈ s.transactions := by
          have := List.mem_of_find?_eq_some hl2
          exact List.mem_reverse.mp this
        have hpid : t.product_id = pid := by
          simpa using List.find?_some hl2
        have := h.1.2.2 t hmem
        omega
      · show t.new_stock =
          stockOfP (s.products ++ [newProduct s i m c pr sup]) pid
        rw [hstock_ne pid hpp]
        exact h.2.2 pid t hl2

theorem addProduct_ledgerInv {s : Sys} {i m : Int} {c pr : ℚ}
    {sup : Option Nat} {now : Nat} (h : LedgerInv s) :
    LedgerInv (addProduct s i m c pr sup now).1 :=
  checkProductStock_ledgerInv (addProductMid_ledgerInv h)

theorem ledgerInv_orders_updateFirst {s : Sys} {pr : RestockOrder → Bool}
    {f : RestockOrder → RestockOrder} (hf : ∀ o, (f o).items = o.items)
    (h : LedgerInv s) :
    LedgerInv { s with orders := updateFirst pr f s.orders } := by
  refine ⟨⟨?_, h.1.2.1, h.1.2.2⟩, txnInv_frame rfl rfl h.2⟩
  intro o' ho' it hit
  rcases mem_updateFirst ho' with h1 | ⟨b, hb, _, rfl⟩
  · exact h.1.1 o' h1 it hit
  · rw [hf b] at hit
    exact h.1.1 b hb it hit

theorem confirmOrder_ledgerInv {s : Sys} {oid : Nat} (h : LedgerInv s) :
    LedgerInv (confirmOrder s oid).1 := by
  rcases hf : s.orders.find? (fun o => o.id == oid) with _ | o
  · simp only [confirmOrder, hf]
    exact h
  · simp only [confirmOrder, hf]
    by_cases hst : o.status = .pending
    · rw [if_pos hst]
      exact ledgerInv_orders_updateFirst (fun _ => rfl) h
    · rw [if_neg hst]
      exact h

theorem markShipped_ledgerInv {s : Sys} {oid : Nat} (h : LedgerInv s) :
    LedgerInv (markShipped s oid).1 := by
  rcases hf : s.orders.find? (fun o => o.id == oid) with _ | o
  · simp only [markShipped, hf]
    exact h
  · simp only [markShipped, hf]
    by_cases hst : o.status = .confirmed
    · rw [if_pos hst]
      exact ledgerInv_orders_updateFirst (fun _ => rfl) h
    · rw [if_neg hst]
      exact h

theorem cancelOrder_ledgerInv {s : Sys} {oid : Nat} (h : LedgerInv s) :
    LedgerInv (cancelOrder s oid).1 := by
  rcases hf : s.orders.find? (fun o => o.id == oid) with _ | o
  · simp only [cancelOrder, hf]
    exact h
  · simp only [cancelOrder, hf]
    by_cases hst : o.status = .pending ∨ o.status = .confirmed
    · rw [if_pos hst]
      exact ledgerInv_orders_updateFirst (fun _ => rfl) h
    · rw [if_neg hst]
      exact h

theorem createOrder_ledgerInv {s : Sys} {sid : Nat}
    {items : List (Nat × Int)} {now : Nat} (h : LedgerInv s) :
    LedgerInv (step s (.createOrder sid items now)) := by
  simp only [step]
  rcases hc : createRestockOrder s sid items now with e | ⟨s', o⟩
  · exact h
  · obtain ⟨hs', hb, -, -⟩ := createRestockOrder_ok_spec hc
    subst hs'
    refine ⟨⟨?_, h.1.2.1, h.1.2.2⟩, txnInv_frame rfl rfl h.2⟩
    intro o' ho' it hit
    rcases List.mem_append.mp ho' with h1 | h1
    · exact h.1.1 o' h1 it hit
    · rcases List.mem_singleton.mp h1 with rfl
      obtain ⟨p, hp, he, -, -⟩ := buildOrderItems_exists hb it hit
      exact ⟨p, hp, he⟩

theorem receiveOrder_ledgerInv {s : Sys} {oid : Nat}
    {received : Option (List (Nat × Int))} {now : Nat} (h : LedgerInv s) :
    LedgerInv (receiveOrder s oid received now).1 := by
  rcases hf : s.orders.find? (fun o => o.id == oid) with _ | o
  · simp only [receiveOrder, hf]
    exact h
  · simp only [receiveOrder, hf]
    by_cases hst : o.status = .confirmed ∨ o.status = .shipped
    · rw [if_pos hst]
      have ho : o ∈ s.orders := List.mem_of_find?_eq_some hf
      have hex : ∀ it ∈ o.items, ∃ p ∈ s.products, p.id = it.product_id :=
        h.1.1 o ho
      have hids := receiveItems_products_ids received o.items s.products
      have hpid_of_mem : ∀ x, x ∈ o.items.map (fun it => it.product_id) →
          ∃ p ∈ s.products, p.id = x := by
        intro x hx
        obtain ⟨it, hit, hxe⟩ := List.mem_map.mp hx
        exact hxe ▸ hex it hit
      refine ⟨⟨?_, ?_, ?_⟩, ?_, ?_⟩
      · -- order items refer to existing products
        intro o'' ho'' it hit
        rcases mem_updateFirst ho'' with h1 | ⟨b, hb, -, rfl⟩
        · exact exists_id_of_map_id_eq hids (h.1.1 o'' h1 it hit)
        · have hmemp : it.product_id ∈
              (receiveItems received o.items s.products).2.2.map
                (fun x => x.product_id) :=
            List.mem_map_of_mem _ hit
          rw [receiveItems_items_pids] at hmemp
          exact exists_id_of_map_id_eq hids (hpid_of_mem _ hmemp)
      · -- product ids below the counter
        intro p hp
        have hmem : p.id ∈
            (receiveItems received o.items s.products).1.map
              (fun q => q.id) := List.mem_map_of_mem _ hp
        rw [hids] at hmem
        obtain ⟨q, hq, hqe⟩ := List.mem_map.mp hmem
        have := h.1.2.1 q hq
        show p.id < s.next_product_id
        omega
      · -- transaction product ids below the counter
        intro t ht
        rcases List.mem_append.mp ht with h1 | h1
        · exact h.1.2.2 t h1
        · have hmem : t.product_id ∈
              (receiveItems received o.items s.products).2.1.map
                (fun x => x.product_id) := List.mem_map_of_mem _ h1
          rw [receiveItems_txn_pids] at hmem
          obtain ⟨p, hp, hpe⟩ := hpid_of_mem _ hmem
          have := h.1.2.1 p hp
          show t.product_id < s.next_product_id
          omega
      · -- every row satisfies prev + qty = new
        intro t ht
        rcases List.mem_append.mp ht with h1 | h1
        · exact h.2.1 t h1
        · exact receiveItems_txns_ok received o.items s.products t h1
      · -- the most recent row per product records the current stock
        intro pid t hl
        exact receiveItems_last received o.items s.products s.transactions
          hex (fun pid' t' hl' => h.2.2 pid' t' hl') pid t hl
    · rw [if_neg hst]
      exact h

theorem acknowledgeAlert_ledgerInv {s : Sys} {aid now : Nat}
    (h : LedgerInv s) : LedgerInv (acknowledgeAlert s aid now).1 := by
  simp only [acknowledgeAlert]
  split
  · split
    · exact ledgerInv_frame rfl rfl rfl rfl h
    · exact h
  · exact h

theorem resolveAlert_ledgerInv {s : Sys} {aid now : Nat}
    (h : LedgerInv s) : LedgerInv (resolveAlert s aid now).1 := by
  simp only [resolveAlert]
  split
  · split
    · exact ledgerInv_frame rfl rfl rfl rfl h
    · exact h
  · exact h

theorem updateProductCost_ledgerInv {s : Sys} {pid : Nat} {c : ℚ}
    (h : LedgerInv s) : LedgerInv (updateProductCost s pid c) := by
  have hids := map_updateFirst (p := fun p => p.id == pid)
    (f := fun p => { p with cost := c }) (g := fun p => p.id)
    (fun a => rfl) s.products
  refine ⟨⟨?_, ?_, h.1.2.2⟩, ?_, ?_⟩
  · intro o ho it hit
    exact exists_id_of_map_id_eq hids (h.1.1 o ho it hit)
  · intro p hp
    rcases mem_updateFirst hp with h1 | ⟨b, hb, -, rfl⟩
    · exact h.1.2.1 p h1
    · exact h.1.2.1 b hb
  · exact h.2.1
  · intro pid' t hl
    show t.new_stock = stockOfP (updateProductCost s pid c).products pid'
    rw [show (updateProductCost s pid c).products =
      updateFirst (fun p => p.id == pid) (fun p => { p with cost := c })
        s.products from rfl]
    rw [stockOfP_updateFirst_cost]
    exact h.2.2 pid' t hl

/-- Every operation of the system preserves the C3 invariant. -/
theorem step_ledgerInv {s : Sys} (op : SysOp) (h : LedgerInv s) :
    LedgerInv (step s op) := by
  cases op with
  | update pid qc tt now => exact runUpdateStock_ledgerInv h
  | sell pid q now => exact runUpdateStock_ledgerInv h
  | restock pid q now => exact runUpdateStock_ledgerInv h
  | ret pid q now => exact runUpdateStock_ledgerInv h
  | adjust pid target now =>
    simp only [step]
    rcases hfind : s.products.find? (fun p => p.id == pid) with _ | p
    · rw [hfind]
      exact h
    · rw [hfind]
      exact runUpdateStock_ledgerInv h
  | expire pid q now => exact runUpdateStock_ledgerInv h
  | damage pid q now => exact runUpdateStock_ledgerInv h
  | addProd i m c pr sup now => exact addProduct_ledgerInv h
  | check p now => exact checkProductStock_ledgerInv h
  | ack aid now => exact acknowledgeAlert_ledgerInv h
  | resolve aid now => exact resolveAlert_ledgerInv h
  | createOrder sid items now => exact createOrder_ledgerInv h
  | confirm oid => exact confirmOrder_ledgerInv h
  | ship oid => exact markShipped_ledgerInv h
  | cancel oid => exact cancelOrder_ledgerInv h
  | receive oid received now => exact receiveOrder_ledgerInv h
  | updCost pid c => exact updateProductCost_ledgerInv h

theorem foldl_step_ledgerInv (ops : List SysOp) {s₀ : Sys}
    (h : LedgerInv s₀) : LedgerInv (ops.foldl step s₀) := by
  induction ops generalizing s₀ with
  | nil => exact h
  | cons op rest ih => exact ih (step_ledgerInv op h)

/-- C3. In every state reachable (by any operations of the system,
`update_stock` and wrappers, `add_product`, alert operations and the whole
order workflow including `receive_order`) from a well-formed state whose
ledger is consistent, every `StockTransaction` satisfies
`previous_stock + quantity = new_stock`, and for every product the most
recent transaction's `new_stock` equals the product's `current_stock` — the
state-level rendering of "`new_stock` equals the product's current stock at
the moment of commit", since each row is the most recent one for its
product from its commit until the product's next commit. -/
theorem transaction_consistency (ops : List SysOp) (s₀ : Sys)
    (hwf : WfSys s₀) (hinv : TxnInv s₀) :
    ∀ n, (∀ t ∈ ((ops.take n).foldl step s₀).transactions,
        t.previous_stock + t.quantity = t.new_stock) ∧
      (∀ pid t, lastTxnFor ((ops.take n).foldl step s₀) pid = some t →
        t.new_stock = stockOf ((ops.take n).foldl step s₀) pid) := by
  intro n
  have h := foldl_step_ledgerInv (ops.take n) ⟨hwf, hinv⟩
  exact ⟨h.2.1, h.2.2⟩

/-- The empty store. -/
def sysE : Sys :=
  { products := [], transactions := [], alerts := [], suppliers := [],
    orders := [], cooldown := [], notifications := [],
    cooldown_minutes := 30, next_product_id := 1, next_alert_id := 1,
    next_order_id := 1 }

theorem sysE_wf : WfSys sysE := by
  refine ⟨?_, ?_, ?_⟩ <;> intro x hx <;> simp [sysE] at hx

theorem sysE_txnInv : TxnInv sysE := by
  constructor
  · intro t ht
    simp [sysE] at ht
  · intro pid t hl
    simp [lastTxnFor, lastTxnForL, sysE] at hl

/-- Witness for C3: create a product with initial stock 20 (which commits
the initial-stock row), then sell 5 and receive nothing else; the reached
ledger is consistent. -/
theorem transaction_consistency_witness :
    (∀ t ∈ (([SysOp.addProd 20 10 2 5 (some 1) 0,
        SysOp.sell 1 5 1].take 2).foldl step sysE).transactions,
      t.previous_stock + t.quantity = t.new_stock) ∧
    (∀ pid t, lastTxnFor (([SysOp.addProd 20 10 2 5 (some 1) 0,
        SysOp.sell 1 5 1].take 2).foldl step sysE) pid = some t →
      t.new_stock = stockOf (([SysOp.addProd 20 10 2 5 (some 1) 0,
        SysOp.sell 1 5 1].take 2).foldl step sysE) pid) :=
  transaction_consistency [SysOp.addProd 20 10 2 5 (some 1) 0,
    SysOp.sell 1 5 1] sysE sysE_wf sysE_txnInv 2

/-- C8 (amended). `receive_order` succeeds exactly when the order is
`Confirmed` or `Shipped`. On success it records each item's
`quantity_received` (the caller's override when given, else
`quantity_ordered`), increments each product's stock directly and appends
one `Restock` ledger row per item with delta `quantity_received`, and marks
the order `Delivered` with `actual_delivery = now` — without invoking the
stock mutator's alert evaluation: the alert table, cooldowns and
notifications are untouched. From any other status it returns
`(False, [])` with no error detail and mutates nothing (a `Pending` order
stays `Pending`). -/
theorem receive_order_spec (s : Sys) (oid : Nat)
    (received : Option (List (Nat × Int))) (now : Nat) (o : RestockOrder)
    (hfind : s.orders.find? (fun x => x.id == oid) = some o)
    (hex : ∀ it ∈ o.items, ∃ p ∈ s.products, p.id = it.product_id) :
    ((o.status ≠ .confirmed ∧ o.status ≠ .shipped) →
      receiveOrder s oid received now = (s, false, [])) ∧
    ((o.status = .confirmed ∨ o.status = .shipped) →
      (receiveOrder s oid received now).2.1 = true ∧
      (receiveOrder s oid received now).1.alerts = s.alerts ∧
      (receiveOrder s oid received now).1.notifications = s.notifications ∧
      (receiveOrder s oid received now).1.cooldown = s.cooldown ∧
      (∃ o', (receiveOrder s oid received now).1.orders.find?
          (fun x => x.id == oid) = some o' ∧
        o'.status = .delivered ∧ o'.actual_delivery = some now ∧
        o'.items.map (fun it => (it.product_id, it.quantity_received)) =
          o.items.map (fun it => (it.product_id, recvQty received it))) ∧
      ((receiveOrder s oid received now).2.2.map
          (fun t => (t.product_id, t.transaction_type, t.quantity)) =
        o.items.map (fun it =>
          (it.product_id, TransactionType.restock, recvQty received it))) ∧
      (receiveOrder s oid received now).1.transactions =
        s.transactions ++ (receiveOrder s oid received now).2.2 ∧
      (∀ pid, stockOf (receiveOrder s oid received now).1 pid =
        stockOf s pid + sumRecv o.items received pid)) := by
  constructor
  · rintro ⟨h1, h2⟩
    simp only [receiveOrder, hfind]
    rw [if_neg (not_or.mpr ⟨h1, h2⟩)]
  · intro hst
    simp only [receiveOrder, hfind]
    rw [if_pos hst]
    have hoid : (o.id == oid) = true := by
      have := List.find?_some hfind
      simpa using this
    refine ⟨rfl, rfl, rfl, rfl, ?_, ?_, rfl, ?_⟩
    · refine ⟨_, find?_updateFirst_self hfind (fun b _ => hoid), rfl, rfl,
        ?_⟩
      exact receiveItems_items_shape received o.items s.products
    · exact receiveItems_txn_shape received o.items s.products
    · intro pid
      exact receiveItems_stock received o.items s.products hex pid

/-- A line item of the concrete witness order: 5 units of product 1 at the
snapshot cost 2. -/
def itemW8 : RestockOrderItem :=
  { product_id := 1, quantity_ordered := 5, quantity_received := 0,
    unit_cost := 2, total_price := 10 }

/-- A confirmed restock order over the witness product. -/
def orderW8 : RestockOrder :=
  { id := 1, supplier_id := 1, status := .confirmed, total_amount := 10,
    items := [itemW8], expected_delivery := none, actual_delivery := none }

def sysW8 : Sys :=
  { sysW with orders := [orderW8] }

/-- Witness for C8: receiving the confirmed order succeeds, leaves the
alert table untouched, and adds the received 5 units to the stock. -/
theorem receive_order_spec_witness :
    (receiveOrder sysW8 1 none 7).2.1 = true ∧
    (receiveOrder sysW8 1 none 7).1.alerts = sysW8.alerts ∧
    stockOf (receiveOrder sysW8 1 none 7).1 1 =
      stockOf sysW8 1 + sumRecv orderW8.items none 1 := by
  have h := (receive_order_spec sysW8 1 none 7 orderW8 (by decide)
    (by decide)).2 (Or.inl rfl)
  exact ⟨h.1, h.2.1, h.2.2.2.2.2.2.2 1⟩

/-- The witness product sold out, with an outstanding Active out-of-stock
alert. -/
def prodW8c : Product :=
  { id := 1, current_stock := 0, min_stock_level := 10,
    cost := 2, price := 5, is_active := true, supplier_id := some 1 }

def alertW8c : StockAlert :=
  { id := 1, product_id := 1, alert_type := .outOfStock, status := .active,
    stock_level_at_alert := 0, acknowledged_at := none, resolved_at := none }

def orderW8c : RestockOrder :=
  { id := 1, supplier_id := 1, status := .confirmed, total_amount := 200,
    items := [{ product_id := 1, quantity_ordered := 100,
                quantity_received := 0, unit_cost := 2,
                total_price := 200 }],
    expected_delivery := none, actual_delivery := none }

def sysW8c : Sys :=
  { sysW with products := [prodW8c], alerts := [alertW8c],
              orders := [orderW8c] }

/-- The witness product after the receipt brought its stock to 100. -/
def prodW8cAfter : Product :=
  { id := 1, current_stock := 100, min_stock_level := 10,
    cost := 2, price := 5, is_active := true, supplier_id := some 1 }

/-- Counterexample to C8 as stated: receiving a confirmed order for a
sold-out product (Active out-of-stock alert) succeeds and raises the stock
to 100 — healthy, no condition classified — yet the out-of-stock alert is
still Active afterwards: the claimed cascade into alert evaluation does not
happen (running the evaluation on the post-state would have changed the
alert table, as the last conjunct shows). -/
theorem receive_no_alert_cascade_counterexample :
    (receiveOrder sysW8c 1 none 5).2.1 = true ∧
    stockOf (receiveOrder sysW8c 1 none 5).1 1 = 100 ∧
    classifyAlert prodW8cAfter.current_stock prodW8cAfter.min_stock_level =
      none ∧
    (receiveOrder sysW8c 1 none 5).1.alerts = [alertW8c] ∧
    alertW8c.status = .active ∧
    (checkProductStock (receiveOrder sysW8c 1 none 5).1 prodW8cAfter
        5).1.alerts ≠ (receiveOrder sysW8c 1 none 5).1.alerts := by
  decide

/-- C9. At creation `order.total_amount` is the sum of the line items'
`total_price`, where each line snapshots the product's unit cost at
creation time (`total_price = quantity * snapshotted cost`); and a later
change to a product's cost (`update_product`) touches only the product
table, leaving the order — its `total_amount`, each item's `unit_cost` and
`total_price` — unchanged. -/
theorem order_total_snapshot (s : Sys) (sid : Nat)
    (items : List (Nat × Int)) (now : Nat) (s' : Sys) (o : RestockOrder)
    (h : createRestockOrder s sid items now = .ok (s', o)) :
    o.total_amount = (o.items.map (fun it => it.total_price)).sum ∧
    (∀ it ∈ o.items, ∃ p ∈ s.products, p.id = it.product_id ∧
      it.unit_cost = p.cost ∧
      it.total_price = (it.quantity_ordered : ℚ) * p.cost) ∧
    (∀ pid c, (updateProductCost s' pid c).orders = s'.orders) := by
  obtain ⟨-, hb, -, htot⟩ := createRestockOrder_ok_spec h
  exact ⟨htot, buildOrderItems_exists hb, fun pid c => rfl⟩

/-- The line item created by the witness order: 5 units of product 1,
snapshot cost 2, line total 5 · 2. -/
def itemW9 : RestockOrderItem :=
  { product_id := 1, quantity_ordered := 5, quantity_received := 0,
    unit_cost := 2, total_price := ((5 : Int) : ℚ) * 2 }

def orderW9 : RestockOrder :=
  { id := 1, supplier_id := 1, status := .pending,
    total_amount := ([itemW9].map (fun it => it.total_price)).sum,
    items := [itemW9], expected_delivery := some 3,
    actual_delivery := none }

def sysW9 : Sys :=
  { sysW with orders := [orderW9], next_order_id := 2 }

/-- Witness for C9: the concrete order created over `sysW` totals 10 = 5·2,
and raising the product's cost to 99 afterwards leaves the order table
unchanged. -/
theorem order_total_snapshot_witness :
    orderW9.total_amount = (orderW9.items.map (fun it => it.total_price)).sum
    ∧ (updateProductCost sysW9 1 99).orders = sysW9.orders := by
  have h := order_total_snapshot sysW 1 [(1, 5)] 0 sysW9 orderW9 (by rfl)
  exact ⟨h.1, h.2.2 1 99⟩

end Grocery
